import Mathlib

/-!
# A shallow embedding of the golox interpreter

This file embeds the Go sources of the golox bytecode interpreter
(`main.go`, `lox/scanner.go`, `lox/chunk.go`, `lox/value.go`,
`lox/compiler.go`, `lox/vm.go` — for files that ship several historical
revisions concatenated, the revision the specification describes: the
compiler with local/global variables and the VM with a globals table)
and proves properties of the embedded definitions.

Modelling conventions:
* Go strings are represented as `List Char` (all sources involved are
  ASCII, so byte-level slicing and comparison coincide with `Char`-level
  operations).
* Go `float64` is modelled by `GoFloat`: exact rationals plus `nan`,
  `posInf`, `negInf`.  Rounding of arithmetic results is not modelled
  (all numeric facts proved here involve small integers, where IEEE-754
  double arithmetic is exact); NaN propagation, NaN-inequality and the
  special values are modelled.  Signed zero is not modelled.
* Go `byte(x)` conversions are modelled as `x % 256` on `Nat`.
* Go panics (out-of-range indexing, failed type assertions, nil function
  calls) are modelled by `Option`/explicit failure results, never by a
  default value, except where noted by a comment.
* Output is modelled as lists of written fragments: one list entry per
  `fmt` write call.  The VM state carries `stdoutOut` and `stderrOut`
  for `os.Stdout`/`os.Stderr`; the always-on debug trace written by
  `debugTraceExecution` is recorded structurally in a separate `traceOut`
  field (one snapshot per executed instruction).
* Compile-time diagnostics written by `errorAt` to `os.Stderr` are
  recorded structurally as `Diag` values (line, position part, message),
  mirroring the three `Fprintf` branches of `errorAt`.
-/

set_option maxHeartbeats 2000000

namespace Golox

/-! ## Go float64 model (value.go: NumberValue) -/

inductive GoFloat where
  | finite (q : ℚ)
  | posInf
  | negInf
  | nan
  deriving DecidableEq

namespace GoFloat

/-- IEEE-754 `==` on doubles: NaN compares unequal to everything,
including itself. -/
def ieeeEq : GoFloat → GoFloat → Bool
  | finite a, finite b => a = b
  | posInf, posInf => true
  | negInf, negInf => true
  | _, _ => false

/-- IEEE-754 addition (exact on finite values; rounding not modelled). -/
def add : GoFloat → GoFloat → GoFloat
  | nan, _ => nan
  | _, nan => nan
  | posInf, negInf => nan
  | negInf, posInf => nan
  | posInf, _ => posInf
  | _, posInf => posInf
  | negInf, _ => negInf
  | _, negInf => negInf
  | finite a, finite b => finite (a + b)

/-- IEEE-754 subtraction (exact on finite values). -/
def sub : GoFloat → GoFloat → GoFloat
  | nan, _ => nan
  | _, nan => nan
  | posInf, posInf => nan
  | negInf, negInf => nan
  | posInf, _ => posInf
  | _, posInf => negInf
  | negInf, _ => negInf
  | _, negInf => posInf
  | finite a, finite b => finite (a - b)

/-- IEEE-754 multiplication (exact on finite values; signed zero not
modelled, so the sign of zero products is approximated). -/
def mul : GoFloat → GoFloat → GoFloat
  | nan, _ => nan
  | _, nan => nan
  | posInf, posInf => posInf
  | negInf, negInf => posInf
  | posInf, negInf => negInf
  | negInf, posInf => negInf
  | posInf, finite b => if b = 0 then nan else if 0 < b then posInf else negInf
  | finite a, posInf => if a = 0 then nan else if 0 < a then posInf else negInf
  | negInf, finite b => if b = 0 then nan else if 0 < b then negInf else posInf
  | finite a, negInf => if a = 0 then nan else if 0 < a then negInf else posInf
  | finite a, finite b => finite (a * b)

/-- IEEE-754 division (exact on finite values; signed zero not
modelled). -/
def div : GoFloat → GoFloat → GoFloat
  | nan, _ => nan
  | _, nan => nan
  | posInf, posInf => nan
  | posInf, negInf => nan
  | negInf, posInf => nan
  | negInf, negInf => nan
  | posInf, finite b => if 0 ≤ b then posInf else negInf
  | negInf, finite b => if 0 ≤ b then negInf else posInf
  | finite _, posInf => finite 0
  | finite _, negInf => finite 0
  | finite a, finite b =>
      if b = 0 then
        if a = 0 then nan else if 0 < a then posInf else negInf
      else finite (a / b)

/-- IEEE-754 `<`: false whenever NaN is involved. -/
def lt : GoFloat → GoFloat → Bool
  | nan, _ => false
  | _, nan => false
  | posInf, _ => false
  | _, posInf => true
  | negInf, negInf => false
  | negInf, _ => true
  | _, negInf => false
  | finite a, finite b => a < b

/-- IEEE-754 `<=`: false whenever NaN is involved. -/
def le : GoFloat → GoFloat → Bool
  | nan, _ => false
  | _, nan => false
  | negInf, _ => true
  | _, negInf => false
  | _, posInf => true
  | posInf, _ => false
  | finite a, finite b => a ≤ b

/-- IEEE-754 negation. -/
def neg : GoFloat → GoFloat
  | nan => nan
  | posInf => negInf
  | negInf => posInf
  | finite a => finite (-a)

end GoFloat

/-! ## Values (value.go) -/

inductive Value where
  | nilV
  | boolV (b : Bool)
  | numberV (d : GoFloat)
  | stringV (s : List Char)
  deriving DecidableEq

namespace Value

/-- value.go `isTruthy`: `BoolValue` by its payload, `NilValue` false,
numbers and strings always true. -/
def isTruthy : Value → Bool
  | nilV => false
  | boolV b => b
  | numberV _ => true
  | stringV _ => true

/-- Go interface equality `a == b` as used by `OpEqual`: equal dynamic
type and equal payload, with `float64` compared by IEEE `==`. -/
def valueEq : Value → Value → Bool
  | nilV, nilV => true
  | boolV a, boolV b => a = b
  | numberV a, numberV b => GoFloat.ieeeEq a b
  | stringV a, stringV b => a = b
  | _, _ => false

/-- The variant tag of a value (used to state cross-variant claims). -/
def variant : Value → Nat
  | nilV => 0
  | boolV _ => 1
  | numberV _ => 2
  | stringV _ => 3

end Value

/-- Rendering of a number by `fmt.Printf("%g", v)`, modelled exactly on
integral values (the only numbers printed in the proofs below) and by a
placeholder otherwise. -/
def numberToString (d : GoFloat) : String :=
  match d with
  | .finite q => if q.den = 1 then toString q.num else "<noninteger>"
  | .posInf => "+Inf"
  | .negInf => "-Inf"
  | .nan => "NaN"

/-- value.go `print` methods: the text written to stdout for a value. -/
def printValue (v : Value) : String :=
  match v with
  | .nilV => "nil"
  | .boolV b => if b then "true" else "false"
  | .numberV d => numberToString d
  | .stringV s => String.mk s

/-! ## Chunk (chunk.go) -/

/-- chunk.go opcode values (`OpCode` iota). -/
def opReturn : Nat := 0
def opConstant : Nat := 1
def opNegate : Nat := 2
def opAdd : Nat := 3
def opSubtract : Nat := 4
def opMultiply : Nat := 5
def opDivide : Nat := 6
def opNil : Nat := 7
def opTrue : Nat := 8
def opFalse : Nat := 9
def opNot : Nat := 10
def opEqual : Nat := 11
def opNotEqual : Nat := 12
def opGreater : Nat := 13
def opGreaterEqual : Nat := 14
def opLess : Nat := 15
def opLessEqual : Nat := 16
def opPrint : Nat := 17
def opPop : Nat := 18
def opDefineGlobal : Nat := 19
def opGetGlobal : Nat := 20
def opSetGlobal : Nat := 21
def opGetLocal : Nat := 22
def opSetLocal : Nat := 23
def opJumpIfFalse : Nat := 24
def opJump : Nat := 25
def opLoop : Nat := 26

structure Chunk where
  code : List Nat
  constants : List Value
  lines : List Nat
  deriving DecidableEq

/-- chunk.go `NewChunk`. -/
def newChunk : Chunk := ⟨[], [], []⟩

namespace Chunk

/-- chunk.go `Write`: append one byte to `code` and one entry to
`lines`. -/
def write (c : Chunk) (b : Nat) (line : Nat) : Chunk :=
  { c with code := c.code ++ [b], lines := c.lines ++ [line] }

/-- chunk.go `AddConstant`: append the value and return its index. -/
def addConstant (c : Chunk) (v : Value) : Chunk × Nat :=
  ({ c with constants := c.constants ++ [v] }, c.constants.length + 1 - 1)

end Chunk

/-! ## Tokens and scanner (scanner.go) -/

inductive TokenType where
  | leftParen | rightParen | leftBrace | rightBrace
  | comma | dot | minus | plus | semicolon | slash | star
  | bang | bangEqual | equal | equalEqual
  | greater | greaterEqual | less | lessEqual
  | identifier | stringLit | number
  | andKw | classKw | elseKw | falseKw | forKw | funKw | ifKw | nilKw
  | orKw | printKw | returnKw | superKw | thisKw | trueKw | varKw | whileKw
  | error | eof
  deriving DecidableEq

structure Token where
  tokenType : TokenType
  lexeme : List Char
  line : Nat
  deriving DecidableEq

/-- The zero value `Token{}` used to initialise the compiler. -/
def Token.zero : Token := ⟨.leftParen, [], 0⟩

structure Scanner where
  source : List Char
  start : Nat
  current : Nat
  line : Nat
  deriving DecidableEq

/-- scanner.go `NewScanner`. -/
def newScanner (source : List Char) : Scanner := ⟨source, 0, 0, 1⟩

namespace Scanner

def isAtEnd (s : Scanner) : Bool := s.source.length ≤ s.current

/-- scanner.go `peek`: the current byte, or NUL at end of input. -/
def peek (s : Scanner) : Char :=
  if s.isAtEnd then '\x00' else s.source.getD s.current '\x00'

/-- scanner.go `peekNext`.  (The Go code indexes `source[current+1]`
after checking only `isAtEnd()`, so Go would panic when `current + 1`
equals the length; the model returns NUL there.  No input used in this
file reaches that corner.) -/
def peekNext (s : Scanner) : Char :=
  if s.isAtEnd then '\x00' else s.source.getD (s.current + 1) '\x00'

/-- scanner.go `advance`: consume and return the current byte.  (Callers
only invoke it when not at end; out of range the model returns NUL where
Go would panic.) -/
def advance (s : Scanner) : Char × Scanner :=
  (s.source.getD s.current '\x00', { s with current := s.current + 1 })

/-- scanner.go `match`. -/
def matchCh (s : Scanner) (expected : Char) : Bool × Scanner :=
  if s.isAtEnd then (false, s)
  else if s.source.getD s.current '\x00' ≠ expected then (false, s)
  else (true, { s with current := s.current + 1 })

/-- scanner.go `makeToken`: lexeme is the source slice
`source[start:current]`. -/
def makeToken (s : Scanner) (tt : TokenType) : Token :=
  ⟨tt, (s.source.drop s.start).take (s.current - s.start), s.line⟩

/-- scanner.go `errorToken`. -/
def errorToken (s : Scanner) (message : String) : Token :=
  ⟨.error, message.toList, s.line⟩

/-- The inner loop of the `//` comment case of `skipWhitespace`:
consume until newline or end of input. -/
def skipComment : Nat → Scanner → Scanner
  | 0, s => s
  | fuel + 1, s =>
      if s.peek ≠ '\n' ∧ ¬ s.isAtEnd then skipComment fuel (s.advance).2
      else s

/-- scanner.go `skipWhitespace` (fuelled; `source.length + 1` fuel is
always sufficient since every iteration consumes at least one byte). -/
def skipWhitespaceF : Nat → Scanner → Scanner
  | 0, s => s
  | fuel + 1, s =>
      match s.peek with
      | ' ' => skipWhitespaceF fuel (s.advance).2
      | '\r' => skipWhitespaceF fuel (s.advance).2
      | '\t' => skipWhitespaceF fuel (s.advance).2
      | '\n' => skipWhitespaceF fuel ({ s with line := s.line + 1 }.advance).2
      | '/' =>
          if s.peekNext = '/' then
            skipWhitespaceF fuel (skipComment (s.source.length + 1) s)
          else s
      | _ => s

def skipWhitespace (s : Scanner) : Scanner :=
  skipWhitespaceF (s.source.length + 1) s

/-- scanner.go `isDigit`. -/
def isDigit (c : Char) : Bool := '0' ≤ c ∧ c ≤ '9'

/-- scanner.go `isAlpha`. -/
def isAlpha (c : Char) : Bool :=
  ('a' ≤ c ∧ c ≤ 'z') ∨ ('A' ≤ c ∧ c ≤ 'Z') ∨ c = '_'

/-- The digit-consuming loop of scanner.go `number`. -/
def digitLoop : Nat → Scanner → Scanner
  | 0, s => s
  | fuel + 1, s =>
      if isDigit s.peek then digitLoop fuel (s.advance).2 else s

/-- scanner.go `number`. -/
def scanNumber (s : Scanner) : Token × Scanner :=
  let s := digitLoop (s.source.length + 1) s
  let s :=
    if s.peek = '.' ∧ isDigit s.peekNext then
      digitLoop (s.source.length + 1) (s.advance).2
    else s
  (s.makeToken .number, s)

/-- The identifier-consuming loop of scanner.go `identifier`. -/
def identLoop : Nat → Scanner → Scanner
  | 0, s => s
  | fuel + 1, s =>
      if isAlpha s.peek ∨ isDigit s.peek then identLoop fuel (s.advance).2
      else s

/-- scanner.go `identifier`: scan the identifier, then recognise
reserved words by exact match. -/
def scanIdentifier (s : Scanner) : Token × Scanner :=
  let s := identLoop (s.source.length + 1) s
  let ident := (s.source.drop s.start).take (s.current - s.start)
  let tt : TokenType :=
    if ident = "and".toList then .andKw
    else if ident = "class".toList then .classKw
    else if ident = "else".toList then .elseKw
    else if ident = "false".toList then .falseKw
    else if ident = "for".toList then .forKw
    else if ident = "fun".toList then .funKw
    else if ident = "if".toList then .ifKw
    else if ident = "nil".toList then .nilKw
    else if ident = "or".toList then .orKw
    else if ident = "print".toList then .printKw
    else if ident = "return".toList then .returnKw
    else if ident = "super".toList then .superKw
    else if ident = "this".toList then .thisKw
    else if ident = "true".toList then .trueKw
    else if ident = "var".toList then .varKw
    else if ident = "while".toList then .whileKw
    else .identifier
  (s.makeToken tt, s)

/-- The body loop of scanner.go `string`. -/
def stringLoop : Nat → Scanner → Scanner
  | 0, s => s
  | fuel + 1, s =>
      if s.peek ≠ '"' ∧ ¬ s.isAtEnd then
        let s := if s.peek = '\n' then { s with line := s.line + 1 } else s
        stringLoop fuel (s.advance).2
      else s

/-- scanner.go `string`. -/
def scanString (s : Scanner) : Token × Scanner :=
  let s := stringLoop (s.source.length + 1) s
  if s.isAtEnd then (s.errorToken "Unterminated string.", s)
  else
    let s := (s.advance).2
    (s.makeToken .stringLit, s)

/-- scanner.go `scanToken`. -/
def scanToken (s0 : Scanner) : Token × Scanner :=
  let s1 := s0.skipWhitespace
  let s := { s1 with start := s1.current }
  if s.isAtEnd then (s.makeToken .eof, s)
  else
    let (c, s) := s.advance
    if isAlpha c then s.scanIdentifier
    else if isDigit c then s.scanNumber
    else if c = '(' then (s.makeToken .leftParen, s)
    else if c = ')' then (s.makeToken .rightParen, s)
    else if c = '{' then (s.makeToken .leftBrace, s)
    else if c = '}' then (s.makeToken .rightBrace, s)
    else if c = ';' then (s.makeToken .semicolon, s)
    else if c = ',' then (s.makeToken .comma, s)
    else if c = '.' then (s.makeToken .dot, s)
    else if c = '-' then (s.makeToken .minus, s)
    else if c = '+' then (s.makeToken .plus, s)
    else if c = '/' then (s.makeToken .slash, s)
    else if c = '*' then (s.makeToken .star, s)
    else if c = '!' then
      let (m, s) := s.matchCh '='
      if m then (s.makeToken .bangEqual, s) else (s.makeToken .bang, s)
    else if c = '=' then
      let (m, s) := s.matchCh '='
      if m then (s.makeToken .equalEqual, s) else (s.makeToken .equal, s)
    else if c = '<' then
      let (m, s) := s.matchCh '='
      if m then (s.makeToken .lessEqual, s) else (s.makeToken .less, s)
    else if c = '>' then
      let (m, s) := s.matchCh '='
      if m then (s.makeToken .greaterEqual, s) else (s.makeToken .greater, s)
    else if c = '"' then s.scanString
    else (s.errorToken "Unexpected character.", s)

end Scanner

/-! ## Compiler (compiler.go) -/

/-- compiler.go `Local`. -/
structure LocalVar where
  name : Token
  depth : Int
  deriving DecidableEq

/-- Which of the three `Fprintf` branches of `errorAt` produced the
position part of a diagnostic. -/
inductive AtPart where
  | atEnd
  | atError
  | atLexeme (lexeme : List Char)
  deriving DecidableEq

/-- One diagnostic written to stderr by `errorAt`:
`[line <line>] Error<position part>: <message>`. -/
structure Diag where
  line : Nat
  part : AtPart
  message : String
  deriving DecidableEq

structure CompState where
  chunk : Chunk
  scanner : Scanner
  previous : Token
  current : Token
  hadError : Bool
  panicMode : Bool
  locals : List LocalVar
  scopeDepth : Int
  diags : List Diag
  deriving DecidableEq

/-- compiler.go `NewCompiler`. -/
def newCompiler (source : List Char) (chunk : Chunk) : CompState :=
  { chunk := chunk, scanner := newScanner source,
    previous := Token.zero, current := Token.zero,
    hadError := false, panicMode := false,
    locals := [], scopeDepth := 0, diags := [] }

namespace Comp

/-- compiler.go `emitByte` (writes through `currentChunk().Write` with
the previous token's line). -/
def emitByte (b : Nat) (st : CompState) : CompState :=
  { st with chunk := st.chunk.write b st.previous.line }

/-- compiler.go `emitBytes`. -/
def emitBytes (b1 b2 : Nat) (st : CompState) : CompState :=
  emitByte b2 (emitByte b1 st)

/-- compiler.go `makeConstant`. -/
def makeConstant (v : Value) (st : CompState) : Nat × CompState :=
  let (c, i) := st.chunk.addConstant v
  (i, { st with chunk := c })

/-- compiler.go `emitConstant`: the constant index is converted with
`byte(...)`, i.e. reduced modulo 256, with no range check. -/
def emitConstant (v : Value) (st : CompState) : CompState :=
  let (i, st) := makeConstant v st
  emitBytes opConstant (i % 256) st

/-- compiler.go `errorAt`: suppressed in panic mode; otherwise sets
panic mode and `hadError` and writes one diagnostic. -/
def errorAt (tok : Token) (message : String) (st : CompState) : CompState :=
  if st.panicMode then st
  else
    let part : AtPart :=
      if tok.tokenType = .eof then .atEnd
      else if tok.tokenType = .error then .atError
      else .atLexeme tok.lexeme
    { st with panicMode := true, hadError := true,
              diags := st.diags ++ [⟨tok.line, part, message⟩] }

/-- compiler.go `errorAtCurrent`. -/
def errorAtCurrent (message : String) (st : CompState) : CompState :=
  errorAt st.current message st

/-- compiler.go `error` (reports at the previous token). -/
def errorAtPrev (message : String) (st : CompState) : CompState :=
  errorAt st.previous message st

/-- The scanning loop of compiler.go `advance`: skip error tokens,
reporting each. -/
def advanceLoop : Nat → CompState → CompState
  | 0, st => st
  | fuel + 1, st =>
      let (tok, sc) := st.scanner.scanToken
      let st := { st with scanner := sc, current := tok }
      if tok.tokenType ≠ .error then st
      else advanceLoop fuel (errorAtCurrent (String.mk tok.lexeme) st)

/-- compiler.go `advance`. -/
def advanceC (st : CompState) : CompState :=
  advanceLoop (st.scanner.source.length + 2) { st with previous := st.current }

/-- compiler.go `consume`. -/
def consume (tt : TokenType) (message : String) (st : CompState) : CompState :=
  if st.current.tokenType = tt then advanceC st
  else errorAtCurrent message st

/-- compiler.go `check`. -/
def checkT (tt : TokenType) (st : CompState) : Bool :=
  st.current.tokenType = tt

/-- compiler.go `match`. -/
def matchT (tt : TokenType) (st : CompState) : Bool × CompState :=
  if ¬ checkT tt st then (false, st)
  else (true, advanceC st)

/-- The token-skipping loop of compiler.go `synchronize`. -/
def syncLoop : Nat → CompState → CompState
  | 0, st => st
  | fuel + 1, st =>
      if st.current.tokenType = .eof then st
      else if st.previous.tokenType = .semicolon then st
      else
        match st.current.tokenType with
        | .classKw | .funKw | .varKw | .forKw | .ifKw | .whileKw
        | .printKw | .returnKw => st
        | _ => syncLoop fuel (advanceC st)

/-- compiler.go `synchronize`. -/
def synchronize (st : CompState) : CompState :=
  syncLoop (st.scanner.source.length + 2) { st with panicMode := false }

/-- compiler.go `identifierConstant`. -/
def identifierConstant (tok : Token) (st : CompState) : Nat × CompState :=
  makeConstant (.stringV tok.lexeme) st

/-- compiler.go `addLocal`: push with sentinel depth `-1`. -/
def addLocal (name : Token) (st : CompState) : CompState :=
  { st with locals := st.locals ++ [⟨name, -1⟩] }

/-- The backwards duplicate-check loop of compiler.go `declareVariable`
(argument list is the local stack newest first). -/
def declareCheck (name : Token) (depth : Int) :
    List LocalVar → CompState → CompState
  | [], st => st
  | l :: rest, st =>
      if l.depth ≠ -1 ∧ l.depth < depth then st
      else
        let st :=
          if name.lexeme = l.name.lexeme then
            errorAtPrev "Already a variable with this name in this scope." st
          else st
        declareCheck name depth rest st

/-- compiler.go `declareVariable`. -/
def declareVariable (st : CompState) : CompState :=
  if st.scopeDepth = 0 then st
  else
    let name := st.previous
    let st := declareCheck name st.scopeDepth st.locals.reverse st
    addLocal name st

/-- compiler.go `markInitialized`: set the depth of the newest local.
(Called only right after a local was declared, so the stack is nonempty;
on an empty stack Go would panic, the model is the identity.) -/
def markInitialized (st : CompState) : CompState :=
  match st.locals.getLast? with
  | none => st
  | some l =>
      { st with locals := st.locals.dropLast ++ [⟨l.name, st.scopeDepth⟩] }

/-- compiler.go `defineVariable`. -/
def defineVariable (global : Nat) (st : CompState) : CompState :=
  if st.scopeDepth > 0 then markInitialized st
  else emitBytes opDefineGlobal (global % 256) st

/-- compiler.go `parseVariable`. -/
def parseVariable (errorMessage : String) (st : CompState) : Nat × CompState :=
  let st := consume .identifier errorMessage st
  let st := declareVariable st
  if st.scopeDepth > 0 then (0, st)
  else identifierConstant st.previous st

/-- compiler.go `beginScope`. -/
def beginScope (st : CompState) : CompState :=
  { st with scopeDepth := st.scopeDepth + 1 }

/-- The pop-locals loop of compiler.go `endScope`. -/
def endScopeLoop : Nat → CompState → CompState
  | 0, st => st
  | fuel + 1, st =>
      match st.locals.getLast? with
      | some l =>
          if l.depth > st.scopeDepth then
            endScopeLoop fuel (emitByte opPop { st with locals := st.locals.dropLast })
          else st
      | none => st

/-- compiler.go `endScope`. -/
def endScope (st : CompState) : CompState :=
  endScopeLoop st.locals.length { st with scopeDepth := st.scopeDepth - 1 }

/-- compiler.go `resolveLocal`: search the local stack newest to
oldest; report the own-initializer error when the hit has depth `-1`. -/
def resolveLocal (tok : Token) (st : CompState) : Int × CompState :=
  match st.locals.reverse.findIdx? (fun l => l.name.lexeme = tok.lexeme) with
  | none => (-1, st)
  | some j =>
      let i : Int := (st.locals.length - 1 - j : Nat)
      match st.locals.reverse.get? j with
      | some l =>
          if l.depth = -1 then
            (i, errorAtPrev "Cannot read local variable in its own initializer." st)
          else (i, st)
      | none => (-1, st)

end Comp

/-! ### Parse table (compiler.go `getRule`) -/

def precedenceNone : Nat := 0
def precedenceAssignment : Nat := 1
def precedenceOr : Nat := 2
def precedenceAnd : Nat := 3
def precedenceEquality : Nat := 4
def precedenceComparison : Nat := 5
def precedenceTerm : Nat := 6
def precedenceFactor : Nat := 7
def precedenceUnary : Nat := 8
def precedenceCall : Nat := 9
def precedencePrimary : Nat := 10

/-- The prefix parse functions appearing in the table (compiler.go
methods `grouping`, `unary`, `number`, `string`, `literal`,
`variable`). -/
inductive PrefixKind where
  | grouping | unary | number | stringLit | literal | variableRef
  deriving DecidableEq

/-- The only infix parse function appearing in the table. -/
inductive InfixKind where
  | binary
  deriving DecidableEq

structure ParseRule where
  prefixFn : Option PrefixKind
  infixFn : Option InfixKind
  precedence : Nat
  deriving DecidableEq

/-- compiler.go `getRule`: the fixed Pratt table. -/
def getRule : TokenType → ParseRule
  | .leftParen => ⟨some .grouping, none, precedenceNone⟩
  | .rightParen => ⟨none, none, precedenceNone⟩
  | .leftBrace => ⟨none, none, precedenceNone⟩
  | .rightBrace => ⟨none, none, precedenceNone⟩
  | .comma => ⟨none, none, precedenceNone⟩
  | .dot => ⟨none, none, precedenceNone⟩
  | .minus => ⟨some .unary, some .binary, precedenceTerm⟩
  | .plus => ⟨none, some .binary, precedenceTerm⟩
  | .semicolon => ⟨none, none, precedenceNone⟩
  | .slash => ⟨none, some .binary, precedenceFactor⟩
  | .star => ⟨none, some .binary, precedenceFactor⟩
  | .bang => ⟨some .unary, none, precedenceNone⟩
  | .bangEqual => ⟨none, some .binary, precedenceEquality⟩
  | .equal => ⟨none, none, precedenceNone⟩
  | .equalEqual => ⟨none, some .binary, precedenceEquality⟩
  | .greater => ⟨none, some .binary, precedenceComparison⟩
  | .greaterEqual => ⟨none, some .binary, precedenceComparison⟩
  | .less => ⟨none, some .binary, precedenceComparison⟩
  | .lessEqual => ⟨none, some .binary, precedenceComparison⟩
  | .identifier => ⟨some .variableRef, none, precedenceNone⟩
  | .stringLit => ⟨some .stringLit, none, precedenceNone⟩
  | .number => ⟨some .number, none, precedenceNone⟩
  | .andKw => ⟨none, none, precedenceNone⟩
  | .classKw => ⟨none, none, precedenceNone⟩
  | .elseKw => ⟨none, none, precedenceNone⟩
  | .falseKw => ⟨some .literal, none, precedenceNone⟩
  | .forKw => ⟨none, none, precedenceNone⟩
  | .funKw => ⟨none, none, precedenceNone⟩
  | .ifKw => ⟨none, none, precedenceNone⟩
  | .nilKw => ⟨some .literal, none, precedenceNone⟩
  | .orKw => ⟨none, none, precedenceNone⟩
  | .printKw => ⟨none, none, precedenceNone⟩
  | .returnKw => ⟨none, none, precedenceNone⟩
  | .superKw => ⟨none, none, precedenceNone⟩
  | .thisKw => ⟨none, none, precedenceNone⟩
  | .trueKw => ⟨some .literal, none, precedenceNone⟩
  | .varKw => ⟨none, none, precedenceNone⟩
  | .whileKw => ⟨none, none, precedenceNone⟩
  | .error => ⟨none, none, precedenceNone⟩
  | .eof => ⟨none, none, precedenceNone⟩

/-! ### Number literals, string literals, simple literals -/

def digitsToNat : List Char → Nat → Nat
  | [], acc => acc
  | c :: rest, acc => digitsToNat rest (acc * 10 + (c.toNat - '0'.toNat))

/-- `strconv.ParseFloat` on a number lexeme (`digits` or
`digits.digits`): exact rational value (double rounding not modelled —
the literals appearing in this file are all exactly representable). -/
def parseNumberLexeme (l : List Char) : ℚ :=
  match l.splitOn '.' with
  | [intPart] => (digitsToNat intPart 0 : ℚ)
  | [intPart, fracPart] =>
      (digitsToNat intPart 0 : ℚ) +
        (digitsToNat fracPart 0 : ℚ) / ((10 : ℚ) ^ fracPart.length)
  | _ => 0

namespace Comp

/-- compiler.go `number` (prefix rule). -/
def numberRule (st : CompState) : CompState :=
  emitConstant (.numberV (.finite (parseNumberLexeme st.previous.lexeme))) st

/-- compiler.go `string` (prefix rule): strip the surrounding
quotes. -/
def stringRule (st : CompState) : CompState :=
  emitConstant (.stringV ((st.previous.lexeme.drop 1).dropLast)) st

/-- compiler.go `literal` (prefix rule). -/
def literalRule (st : CompState) : CompState :=
  match st.previous.tokenType with
  | .falseKw => emitByte opFalse st
  | .trueKw => emitByte opTrue st
  | .nilKw => emitByte opNil st
  | _ => st

end Comp

/-! ### The recursive part of the compiler -/

/-- Result of a fuelled compiler computation.  `nilDeref` models the Go
panic of invoking a `nil` infix rule in `parsePrecedence`. -/
inductive CompRes where
  | ok (st : CompState)
  | outOfFuel
  | nilDeref
  deriving DecidableEq

def CompRes.bind : CompRes → (CompState → CompRes) → CompRes
  | .ok st, f => f st
  | .outOfFuel, _ => .outOfFuel
  | .nilDeref, _ => .nilDeref

/-- The mutually recursive compiler procedures, defunctionalised: each
constructor names one compiler.go method (plus the two loops hidden in
`compile` and `block`, and the infix loop of `parsePrecedence`). -/
inductive CompFn where
  | compileLoop
  | declaration
  | varDeclaration
  | statement
  | blockLoop
  | printStatement
  | expressionStatement
  | expression
  | parsePrec (prec : Nat)
  | infixLoop (prec : Nat) (canAssign : Bool)
  | binaryRule
  | unaryRule
  | groupingRule
  | namedVariable (tok : Token) (canAssign : Bool)

open Comp in
/-- One fuelled engine for the mutually recursive compiler.go methods;
fuel bounds the recursion depth. -/
def compStep : Nat → CompFn → CompState → CompRes
  | 0, _, _ => .outOfFuel
  | n + 1, c, st =>
    match c with
    | .compileLoop =>
        -- compile(): for !match(TokenEOF) { declaration() }
        let (m, st₁) := matchT .eof st
        if m then .ok st₁
        else (compStep n .declaration st₁).bind (compStep n .compileLoop)
    | .declaration =>
        let (m, st₁) := matchT .varKw st
        (if m then compStep n .varDeclaration st₁
         else compStep n .statement st₁).bind fun st₂ =>
          .ok (if st₂.panicMode then synchronize st₂ else st₂)
    | .varDeclaration =>
        let (global, st₁) := parseVariable "Expect variable name." st
        let (m, st₂) := matchT .equal st₁
        (if m then compStep n .expression st₂
         else .ok (emitByte opNil st₂)).bind fun st₃ =>
          let st₄ := consume .semicolon "Expect ';' after variable declaration." st₃
          .ok (defineVariable global st₄)
    | .statement =>
        let (m, st₁) := matchT .printKw st
        if m then compStep n .printStatement st₁
        else
          let (m₂, st₂) := matchT .leftBrace st₁
          if m₂ then
            (compStep n .blockLoop (beginScope st₂)).bind fun st₃ =>
              .ok (endScope (consume .rightBrace "Expect '\x7d' after block." st₃))
          else compStep n .expressionStatement st₂
    | .blockLoop =>
        if ¬ checkT .rightBrace st ∧ ¬ checkT .eof st then
          (compStep n .declaration st).bind (compStep n .blockLoop)
        else .ok st
    | .printStatement =>
        (compStep n .expression st).bind fun st₁ =>
          .ok (emitByte opPrint (consume .semicolon "Expect ';' after value." st₁))
    | .expressionStatement =>
        (compStep n .expression st).bind fun st₁ =>
          .ok (emitByte opPop (consume .semicolon "Expect ';' after expression." st₁))
    | .expression => compStep n (.parsePrec precedenceAssignment) st
    | .parsePrec p =>
        let st₁ := advanceC st
        match (getRule st₁.previous.tokenType).prefixFn with
        | none => .ok (errorAtPrev "Expect expression." st₁)
        | some pf =>
            let canAssign := p ≤ precedenceAssignment
            (match pf with
             | .grouping => compStep n .groupingRule st₁
             | .unary => compStep n .unaryRule st₁
             | .number => .ok (numberRule st₁)
             | .stringLit => .ok (stringRule st₁)
             | .literal => .ok (literalRule st₁)
             | .variableRef =>
                 compStep n (.namedVariable st₁.previous canAssign) st₁).bind
              fun st₂ =>
            (compStep n (.infixLoop p canAssign) st₂).bind fun st₃ =>
              -- if canAssign && match(TokenEqual): the match (and its
              -- side effect) only runs when canAssign holds
              if canAssign then
                let (m, st₄) := matchT .equal st₃
                if m then .ok (errorAtPrev "Invalid assignment target." st₄)
                else .ok st₄
              else .ok st₃
    | .infixLoop p ca =>
        if p ≤ (getRule st.current.tokenType).precedence then
          let st₁ := advanceC st
          match (getRule st₁.previous.tokenType).infixFn with
          | none => .nilDeref
          | some .binary =>
              (compStep n .binaryRule st₁).bind (compStep n (.infixLoop p ca))
        else .ok st
    | .binaryRule =>
        let opType := st.previous.tokenType
        let rule := getRule opType
        (compStep n (.parsePrec (rule.precedence + 1)) st).bind fun st₁ =>
          .ok (match opType with
            | .plus => emitByte opAdd st₁
            | .minus => emitByte opSubtract st₁
            | .star => emitByte opMultiply st₁
            | .slash => emitByte opDivide st₁
            | .bangEqual => emitByte opNotEqual st₁
            | .equalEqual => emitByte opEqual st₁
            | .greater => emitByte opGreater st₁
            | .greaterEqual => emitByte opGreaterEqual st₁
            | .less => emitByte opLess st₁
            | .lessEqual => emitByte opLessEqual st₁
            | _ => st₁)
    | .unaryRule =>
        let opType := st.previous.tokenType
        (compStep n (.parsePrec precedenceUnary) st).bind fun st₁ =>
          .ok (match opType with
            | .minus => emitByte opNegate st₁
            | .bang => emitByte opNot st₁
            | _ => st₁)
    | .groupingRule =>
        (compStep n .expression st).bind fun st₁ =>
          .ok (consume .rightParen "Expect ')' after expression." st₁)
    | .namedVariable tok ca =>
        let (arg, st₁) := resolveLocal tok st
        let (getOp, setOp, argN, st₂) :=
          if arg ≠ -1 then (opGetLocal, opSetLocal, arg.toNat, st₁)
          else
            let (a, st') := identifierConstant tok st₁
            (opGetGlobal, opSetGlobal, a, st')
        -- if canAssign && match(TokenEqual): short-circuit as in Go
        if ca then
          let (m, st₃) := matchT .equal st₂
          if m then
            (compStep n .expression st₃).bind fun st₄ =>
              .ok (emitBytes setOp (argN % 256) st₄)
          else .ok (emitBytes getOp (argN % 256) st₃)
        else .ok (emitBytes getOp (argN % 256) st₂)

/-- compiler.go `compile` with explicit fuel: `advance()`, the
declaration loop, then `end()` (which emits `OP_RETURN`). -/
def compileFuel (n : Nat) (source : List Char) (chunk : Chunk) : CompRes :=
  (compStep n .compileLoop (Comp.advanceC (newCompiler source chunk))).bind
    fun st => .ok (Comp.emitByte opReturn st)

/-- compiler.go `compile` as called by the VM: returns `!hadError` and
the final compiler state (fuel `2·|source| + 100` bounds every parse the
file evaluates; `none` would mean fuel exhaustion or an infix nil
dereference). -/
def compileGo (source : List Char) (chunk : Chunk) : Option (Bool × CompState) :=
  match compileFuel (2 * source.length + 100) source chunk with
  | .ok st => some (!st.hadError, st)
  | _ => none

/-! ## VM (vm.go) -/

inductive InterpretResult where
  | ok
  | compileError
  | runtimeError
  deriving DecidableEq

structure VmState where
  chunk : Chunk
  ip : Nat
  stack : List Value
  globals : List (List Char × Value)
  stdoutOut : List String
  stderrOut : List String
  traceOut : List (List Value × Nat)
  deriving DecidableEq

/-- vm.go `NewVm`. -/
def newVm : VmState := ⟨newChunk, 0, [], [], [], [], []⟩

namespace Vm

/-- Go map read `vm.globals[name]`. -/
def globalsGet (g : List (List Char × Value)) (name : List Char) : Option Value :=
  (g.find? (fun p => p.1 = name)).map (fun p => p.2)

/-- Go map write `vm.globals[name] = v` (replace or insert). -/
def globalsSet (g : List (List Char × Value)) (name : List Char) (v : Value) :
    List (List Char × Value) :=
  match g with
  | [] => [(name, v)]
  | (k, w) :: rest =>
      if k = name then (k, v) :: rest else (k, w) :: globalsSet rest name v

/-- vm.go `push`. -/
def push (vm : VmState) (v : Value) : VmState :=
  { vm with stack := vm.stack ++ [v] }

/-- vm.go `pop` (`none` models the Go panic on an empty stack). -/
def popV (vm : VmState) : Option (Value × VmState) :=
  match vm.stack.getLast? with
  | none => none
  | some v => some (v, { vm with stack := vm.stack.dropLast })

/-- vm.go `peek` (`none` models the Go out-of-range panic). -/
def peekV (vm : VmState) (distance : Nat) : Option Value :=
  if distance < vm.stack.length then
    vm.stack.get? (vm.stack.length - 1 - distance)
  else none

/-- vm.go `resetVm`: clear the stack, discard the chunk, rewind `ip`.
Globals and already-written output persist. -/
def resetVm (vm : VmState) : VmState :=
  { vm with stack := [], chunk := newChunk, ip := 0 }

/-- vm.go `runtimeError` with the looked-up line `L` =
`chunk.lines[ip-1]`: the message and a newline go to stderr
(`Fprintf` + `Fprintln`), the `[line L] in script` line goes to
**stdout** (`fmt.Printf`), then `resetVm` runs. -/
def runtimeErrorApply (message : String) (line : Nat) (vm : VmState) : VmState :=
  resetVm { vm with
    stderrOut := vm.stderrOut ++ [message, "\n"],
    stdoutOut := vm.stdoutOut ++ ["[line " ++ Nat.repr line ++ "] in script\n"] }

/-- The outcome of one iteration of the vm.go `run` loop. -/
inductive StepOut where
  | next (vm : VmState)
  | halt (r : InterpretResult) (vm : VmState)
  deriving DecidableEq

/-- Raise a runtime error: look up `chunk.lines[ip-1]` (`none` models
the Go panic when that index is out of range) and halt with the
runtime-error outcome. -/
def raiseRT (message : String) (vm : VmState) : Option StepOut :=
  (vm.chunk.lines.get? (vm.ip - 1)).map fun l =>
    .halt .runtimeError (runtimeErrorApply message l vm)

/-- vm.go `readByte` (`none` models the Go panic on out-of-range
`ip`). -/
def readByte (vm : VmState) : Option (Nat × VmState) :=
  (vm.chunk.code.get? vm.ip).map fun b => (b, { vm with ip := vm.ip + 1 })

/-- vm.go `readConstant`. -/
def readConstant (vm : VmState) : Option (Value × VmState) :=
  match readByte vm with
  | none => none
  | some (b, vm) =>
      match vm.chunk.constants.get? b with
      | none => none
      | some v => some (v, vm)

/-- vm.go `readShort`: two bytes, big-endian. -/
def readShort (vm : VmState) : Option (Nat × VmState) :=
  match readByte vm with
  | none => none
  | some (b1, vm) =>
      match readByte vm with
      | none => none
      | some (b2, vm) => some ((b1 <<< 8) ||| b2, vm)

/-- One iteration of the vm.go `run` dispatch loop: the (always-on)
debug trace, one `readByte`, then the opcode switch.  `none` models a Go
panic. -/
def stepInstr (vm₀ : VmState) : Option StepOut :=
  -- debugTraceExecution: writes the stack and disassembly to stdout;
  -- recorded structurally as a (stack, ip) snapshot
  match readByte { vm₀ with traceOut := vm₀.traceOut ++ [(vm₀.stack, vm₀.ip)] } with
  | none => none
  | some (instruction, vm) =>
    if instruction = opReturn then some (.halt .ok vm)
    else if instruction = opConstant then
      match readConstant vm with
      | none => none
      | some (v, vm) => some (.next (push vm v))
    else if instruction = opNegate then
      match peekV vm 0 with
      | none => none
      | some (.numberV _) =>
          match popV vm with
          | some (.numberV d, vm) => some (.next (push vm (.numberV d.neg)))
          | _ => none
      | some _ => raiseRT "Operand must be a number." vm
    else if instruction = opAdd then
      match peekV vm 0, peekV vm 1 with
      | some b, some a =>
          match a, b with
          | .stringV sa, .stringV sb =>
              -- pops b then a, pushes the concatenation a + b
              match popV vm with
              | some (_, vm) =>
                  match popV vm with
                  | some (_, vm) => some (.next (push vm (.stringV (sa ++ sb))))
                  | none => none
              | none => none
          | .numberV na, .numberV nb =>
              -- vm.push(NumberValue(vm.pop() + vm.pop())): b + a
              match popV vm with
              | some (_, vm) =>
                  match popV vm with
                  | some (_, vm) =>
                      some (.next (push vm (.numberV (GoFloat.add nb na))))
                  | none => none
              | none => none
          | _, _ => raiseRT "Operands must be two numbers or two strings." vm
      | _, _ => none
    else if instruction = opSubtract ∨ instruction = opMultiply ∨
            instruction = opDivide ∨ instruction = opGreater ∨
            instruction = opLess ∨ instruction = opGreaterEqual ∨
            instruction = opLessEqual then
      match peekV vm 0, peekV vm 1 with
      | some b, some a =>
          match a, b with
          | .numberV na, .numberV nb =>
              match popV vm with
              | some (_, vm) =>
                  match popV vm with
                  | some (_, vm) =>
                      let res : Value :=
                        if instruction = opSubtract then .numberV (na.sub nb)
                        else if instruction = opMultiply then .numberV (na.mul nb)
                        else if instruction = opDivide then .numberV (na.div nb)
                        else if instruction = opGreater then .boolV (nb.lt na)
                        else if instruction = opLess then .boolV (na.lt nb)
                        else if instruction = opGreaterEqual then .boolV (nb.le na)
                        else .boolV (na.le nb)
                      some (.next (push vm res))
                  | none => none
              | none => none
          | _, _ => raiseRT "Operands must be numbers." vm
      | _, _ => none
    else if instruction = opNil then some (.next (push vm .nilV))
    else if instruction = opTrue then some (.next (push vm (.boolV true)))
    else if instruction = opFalse then some (.next (push vm (.boolV false)))
    else if instruction = opNot then
      match popV vm with
      | none => none
      | some (v, vm) => some (.next (push vm (.boolV (! v.isTruthy))))
    else if instruction = opEqual then
      match popV vm with
      | none => none
      | some (b, vm) =>
          match popV vm with
          | none => none
          | some (a, vm) => some (.next (push vm (.boolV (Value.valueEq a b))))
    else if instruction = opNotEqual then
      match popV vm with
      | none => none
      | some (b, vm) =>
          match popV vm with
          | none => none
          | some (a, vm) => some (.next (push vm (.boolV (! Value.valueEq a b))))
    else if instruction = opPrint then
      match popV vm with
      | none => none
      | some (v, vm) =>
          some (.next { vm with stdoutOut := vm.stdoutOut ++ [printValue v, "\n"] })
    else if instruction = opPop then
      match popV vm with
      | none => none
      | some (_, vm) => some (.next vm)
    else if instruction = opDefineGlobal then
      match readConstant vm with
      | some (.stringV name, vm) =>
          match popV vm with
          | none => none
          | some (v, vm) =>
              some (.next { vm with globals := globalsSet vm.globals name v })
      | _ => none  -- failed type assertion .(StringValue): Go panic
    else if instruction = opGetGlobal then
      match readConstant vm with
      | some (.stringV name, vm) =>
          match globalsGet vm.globals name with
          | none =>
              raiseRT ("Undefined variable '" ++ String.mk name ++ "'.") vm
          | some v => some (.next (push vm v))
      | _ => none
    else if instruction = opSetGlobal then
      match readConstant vm with
      | some (.stringV name, vm) =>
          match globalsGet vm.globals name with
          | none =>
              raiseRT ("Undefined variable '" ++ String.mk name ++ "'.") vm
          | some _ =>
              match peekV vm 0 with
              | none => none
              | some v =>
                  some (.next { vm with globals := globalsSet vm.globals name v })
      | _ => none
    else if instruction = opGetLocal then
      match readByte vm with
      | none => none
      | some (slot, vm) =>
          match vm.stack.get? slot with
          | none => none
          | some v => some (.next (push vm v))
    else if instruction = opSetLocal then
      match readByte vm with
      | none => none
      | some (slot, vm) =>
          match peekV vm 0 with
          | none => none
          | some v =>
              if slot < vm.stack.length then
                some (.next { vm with stack := vm.stack.set slot v })
              else none
    else if instruction = opJumpIfFalse then
      match readShort vm with
      | none => none
      | some (offset, vm) =>
          match peekV vm 0 with
          | none => none
          | some v =>
              if ! v.isTruthy then some (.next { vm with ip := vm.ip + offset })
              else some (.next vm)
    else if instruction = opJump then
      match readShort vm with
      | none => none
      | some (offset, vm) => some (.next { vm with ip := vm.ip + offset })
    else if instruction = opLoop then
      match readShort vm with
      | none => none
      | some (offset, vm) =>
          -- Go would let ip go negative and panic on the next access;
          -- the model fails at once
          if offset ≤ vm.ip then some (.next { vm with ip := vm.ip - offset })
          else none
    else
      -- unknown opcode: no switch case matches, the loop continues
      some (.next vm)

/-- vm.go `run`: iterate `stepInstr` (fuelled; `none` is fuel
exhaustion or a modelled panic). -/
def runVm : Nat → VmState → Option (InterpretResult × VmState)
  | 0, _ => none
  | n + 1, vm =>
      match stepInstr vm with
      | none => none
      | some (.halt r vm') => some (r, vm')
      | some (.next vm') => runVm n vm'

/-- vm.go `Interpret`: compile into the VM's chunk; on failure reset
and report a compile error, otherwise run. -/
def interpret (fuel : Nat) (vm : VmState) (source : List Char) :
    Option (InterpretResult × VmState) :=
  match compileGo source vm.chunk with
  | none => none
  | some (okC, cst) =>
      if okC then runVm fuel { vm with chunk := cst.chunk }
      else some (.compileError, resetVm vm)

end Vm

/-! ## CLI (main.go) -/

inductive CliAction where
  | repl
  | runFile (path : String)
  | usageExit64
  deriving DecidableEq

/-- main.go `main` (lines 12–23): dispatch on the argument count.  The
one-argument branch calls `runFile(args[1])`; on a one-element argument
slice `args[1]` is out of range, so the model yields `none` (Go panics)
— `args.get? 1` is `none` there. -/
def mainDispatch (args : List String) : Option CliAction :=
  if args.length = 0 then some .repl
  else if args.length = 1 then (args.get? 1).map .runFile
  else some .usageExit64

/-- main.go `runFile` (lines 40–52), given the contents of a readable
source file: interpret it in a fresh VM and exit 65 on a compile error,
70 on a runtime error, 0 otherwise (fall through to a normal return). -/
def runFileExit (fuel : Nat) (source : List Char) : Option Nat :=
  (Vm.interpret fuel newVm source).map fun p =>
    match p.1 with
    | .compileError => 65
    | .runtimeError => 70
    | .ok => 0

/-! ## Concrete programs appearing in the claims -/

/-- The while-loop program of end-to-end scenario 3. -/
def whileSource : List Char :=
  "var x = 0; while (x < 3) { print x; x = x + 1; }".toList

/-- A starting chunk that already holds 256 constants, so the next
constant a compilation adds is the 257th, with index 256: the smallest
state in which the one-byte operand of `OP_CONSTANT` overflows
(`Compile` receives the chunk to fill as an argument, and `AddConstant`
never deduplicates). -/
def chunk256 : Chunk := ⟨[], List.replicate 256 (.numberV (.finite 1)), []⟩

/-- The own-initializer program of end-to-end scenario 8. -/
def ownInitSource : List Char := "{ var a = a; }".toList

/-- The global-redefinition program of claim C9. -/
def redefineSource : List Char := "var a = 1; var a = 2;".toList

/-- A VM about to execute `OP_NEGATE` on a non-number (line table entry
5), used to exercise the runtime-error path on a concrete state. -/
def vmNegateNil : VmState :=
  ⟨⟨[opNegate], [], [5]⟩, 0, [.nilV], [], [], [], []⟩

/-- The compiler state produced by compiling `1;` (used to witness the
chunk-length invariant on a concrete compilation). -/
def c5state : CompState :=
  match compileFuel 104 "1;".toList newChunk with
  | .ok st => st
  | _ => newCompiler [] newChunk

/-- The VM state left behind by running `vmNegateNil` (a concrete
runtime error). -/
def vmNegateNilFinal : VmState :=
  ⟨newChunk, 0, [], [],
   ["[line 5] in script\n"],
   ["Operand must be a number.", "\n"],
   [([.nilV], 0)]⟩

/-- A compiler state inside a scope with the local `a` just declared
(depth `-1`) and `a` as the previous token: the state `resolveLocal`
sees while compiling `{ var a = a; }`. -/
def c8state : CompState :=
  { newCompiler [] newChunk with
      previous := ⟨.identifier, ['a'], 1⟩,
      scopeDepth := 1,
      locals := [⟨⟨.identifier, ['a'], 1⟩, -1⟩] }

/-- The precondition under which a compiler procedure is run: the two
precedence-carrying procedures are only ever invoked with a precedence
of at least `Assignment`. -/
def noNilPre : CompFn → Prop
  | .parsePrec p => 1 ≤ p
  | .infixLoop p _ => 1 ≤ p
  | _ => True

/-- Reachability by zero or more non-halting VM steps. -/
inductive Reaches : VmState → VmState → Prop where
  | refl (v : VmState) : Reaches v v
  | step (v v' w : VmState) : Vm.stepInstr v = some (.next v') →
      Reaches v' w → Reaches v w

end Golox

/-! # Theorems -/

namespace Golox

set_option maxRecDepth 1000000

/-- Claim C1, original statement, refuted: for the source program
`var x = 0; while (x < 3) { print x; x = x + 1; }`, `compile()` does
not succeed (the claim asserts it succeeds and the VM prints 0, 1, 2). -/
theorem C1_counterexample :
    (compileGo whileSource newChunk).map Prod.fst = some false := by
  rfl

/-- Claim C1 as amended: `statement` parses only print statements,
blocks and expression statements, and `TokenWhile` has no prefix rule,
so compiling the while-loop program fails, the first diagnostic being
`[line 1] Error at 'while': Expect expression.`, and a file-mode run of
the program exits with code 65. -/
theorem C1_amended :
    (compileGo whileSource newChunk).map (fun p => (p.1, p.2.diags.head?)) =
      some (false, some ⟨1, .atLexeme "while".toList, "Expect expression."⟩) ∧
    runFileExit 100 whileSource = some 65 := by
  exact ⟨rfl, rfl⟩

/-- Claim C3, original statement, refuted: compiling the program `1;`
into a chunk that already holds 256 constants needs a 257th constant,
yet the compilation succeeds without any compile error; the emitted
`OP_CONSTANT` carries operand byte 0, the constant index 256 silently
truncated by `byte(...)`. -/
theorem C3_counterexample :
    (compileGo "1;".toList chunk256).map
      (fun p => (p.1, p.2.chunk.constants.length, p.2.chunk.code)) =
    some (true, 257, [opConstant, 0, opPop, opReturn]) := by
  rfl

/-- Claim C3 as amended: `emitConstant` performs no range check at all:
it appends the constant to the pool and emits the constant index reduced
modulo 256 as the operand byte, reporting no error and writing no
diagnostic, for every compiler state. -/
theorem C3_amended :
    ∀ (st : CompState) (v : Value),
      (Comp.emitConstant v st).hadError = st.hadError ∧
      (Comp.emitConstant v st).diags = st.diags ∧
      (Comp.emitConstant v st).chunk.constants = st.chunk.constants ++ [v] ∧
      (Comp.emitConstant v st).chunk.code =
        st.chunk.code ++ [opConstant, st.chunk.constants.length % 256] := by
  intro st v
  simp [Comp.emitConstant, Comp.makeConstant, Comp.emitBytes, Comp.emitByte,
        Chunk.addConstant, Chunk.write]

/-- Claim C4: zero arguments start the REPL and more than one argument
is a usage error, but with exactly one argument `main` evaluates
`args[1]` on a one-element slice, which panics (modelled by `none`)
instead of running the named file. -/
theorem C4_cli_argument_dispatch :
    mainDispatch [] = some .repl ∧
    mainDispatch ["script.lox"] = none ∧
    mainDispatch ["a.lox", "b.lox"] = some .usageExit64 := by
  exact ⟨rfl, rfl, rfl⟩

/-- Claim C2, original statement, refuted: on this concrete runtime
error (`OP_NEGATE` on `nil`), the error message is written to standard
error, but the `[line 5] in script` location line is written to standard
output and appears nowhere on standard error. -/
theorem C2_counterexample :
    Vm.runVm 2 vmNegateNil = some (.runtimeError, vmNegateNilFinal) ∧
    vmNegateNilFinal.stderrOut = ["Operand must be a number.", "\n"] ∧
    "[line 5] in script\n" ∉ vmNegateNilFinal.stderrOut ∧
    vmNegateNilFinal.stdoutOut = ["[line 5] in script\n"] := by
  refine ⟨rfl, rfl, by decide, rfl⟩

/-- Reading one byte advances only `ip`. -/
theorem readByte_eq (vm : VmState) (b : Nat)
    (h : vm.chunk.code.get? vm.ip = some b) :
    Vm.readByte vm = some (b, { vm with ip := vm.ip + 1 }) := by
  unfold Vm.readByte
  rw [h]
  rfl

/-- Reading a constant advances only `ip`. -/
theorem readConstant_eq (vm : VmState) (cIdx : Nat) (v : Value)
    (h1 : vm.chunk.code.get? vm.ip = some cIdx)
    (h2 : vm.chunk.constants.get? cIdx = some v) :
    Vm.readConstant vm = some (v, { vm with ip := vm.ip + 1 }) := by
  unfold Vm.readConstant
  rw [readByte_eq vm cIdx h1]
  simp only []
  rw [h2]

theorem popV_concat (vm : VmState) (l : List Value) (x : Value)
    (h : vm.stack = l ++ [x]) :
    Vm.popV vm = some (x, { vm with stack := l }) := by
  simp [Vm.popV, h]

theorem peekV_zero (vm : VmState) (l : List Value) (x : Value)
    (h : vm.stack = l ++ [x]) : Vm.peekV vm 0 = some x := by
  simp [Vm.peekV, h, List.get?_concat_length]

theorem peekV_one (vm : VmState) (l : List Value) (x y : Value)
    (h : vm.stack = l ++ [x, y]) : Vm.peekV vm 1 = some x := by
  have h2 : vm.stack = (l ++ [x]) ++ [y] := by simp [h]
  simp only [Vm.peekV, h2]
  have hlen : (l ++ [x] ++ [y]).length = l.length + 2 := by simp
  rw [hlen]
  simp only [show l.length + 2 - 1 - 1 = l.length from by omega]
  rw [if_pos (by omega)]
  rw [List.get?_append (by simp)]
  exact List.get?_concat_length l x

/-- Inserting into the globals map makes the lookup of that name return
the inserted value. -/
theorem globalsGet_globalsSet_self (g : List (List Char × Value))
    (n : List Char) (v : Value) :
    Vm.globalsGet (Vm.globalsSet g n v) n = some v := by
  induction g with
  | nil => simp [Vm.globalsSet, Vm.globalsGet]
  | cons p rest ih =>
      obtain ⟨k, w⟩ := p
      by_cases h : k = n
      · simp [Vm.globalsSet, Vm.globalsGet, h]
      · simp only [Vm.globalsSet, if_neg h]
        simp only [Vm.globalsGet, List.find?] at ih ⊢
        rw [decide_eq_false h]
        exact ih

/-- The model's IEEE addition is commutative. -/
theorem GoFloat.add_comm (x y : GoFloat) : GoFloat.add x y = GoFloat.add y x := by
  cases x <;> cases y <;> simp [GoFloat.add] <;> ring

/-- Executing `OP_EQUAL` with at least two stack values. -/
theorem stepInstr_opEqual (vm : VmState) (rest : List Value) (a b : Value)
    (hc : vm.chunk.code.get? vm.ip = some opEqual)
    (hs : vm.stack = rest ++ [a, b]) :
    Vm.stepInstr vm = some (.next
      { vm with stack := rest ++ [.boolV (Value.valueEq a b)],
                ip := vm.ip + 1,
                traceOut := vm.traceOut ++ [(vm.stack, vm.ip)] }) := by
  unfold Vm.stepInstr
  rw [readByte_eq { vm with traceOut := vm.traceOut ++ [(vm.stack, vm.ip)] } opEqual hc]
  norm_num [opReturn, opConstant, opNegate, opAdd, opSubtract, opMultiply,
    opDivide, opGreater, opLess, opGreaterEqual, opLessEqual, opNil, opTrue,
    opFalse, opNot, opEqual]
  rw [popV_concat _ (rest ++ [a]) b (by simp [hs])]
  simp only []
  rw [popV_concat _ rest a (by simp)]
  simp [Vm.push, hs]

/-- Executing `OP_NOT_EQUAL` with at least two stack values. -/
theorem stepInstr_opNotEqual (vm : VmState) (rest : List Value) (a b : Value)
    (hc : vm.chunk.code.get? vm.ip = some opNotEqual)
    (hs : vm.stack = rest ++ [a, b]) :
    Vm.stepInstr vm = some (.next
      { vm with stack := rest ++ [.boolV (! Value.valueEq a b)],
                ip := vm.ip + 1,
                traceOut := vm.traceOut ++ [(vm.stack, vm.ip)] }) := by
  unfold Vm.stepInstr
  rw [readByte_eq { vm with traceOut := vm.traceOut ++ [(vm.stack, vm.ip)] } opNotEqual hc]
  norm_num [opReturn, opConstant, opNegate, opAdd, opSubtract, opMultiply,
    opDivide, opGreater, opLess, opGreaterEqual, opLessEqual, opNil, opTrue,
    opFalse, opNot, opEqual, opNotEqual]
  rw [popV_concat _ (rest ++ [a]) b (by simp [hs])]
  simp only []
  rw [popV_concat _ rest a (by simp)]
  simp [Vm.push, hs]

/-- Executing `OP_ADD` on two numbers. -/
theorem stepInstr_opAdd_numbers (vm : VmState) (rest : List Value)
    (na nb : GoFloat)
    (hc : vm.chunk.code.get? vm.ip = some opAdd)
    (hs : vm.stack = rest ++ [.numberV na, .numberV nb]) :
    Vm.stepInstr vm = some (.next
      { vm with stack := rest ++ [.numberV (GoFloat.add na nb)],
                ip := vm.ip + 1,
                traceOut := vm.traceOut ++ [(vm.stack, vm.ip)] }) := by
  unfold Vm.stepInstr
  rw [readByte_eq { vm with traceOut := vm.traceOut ++ [(vm.stack, vm.ip)] } opAdd hc]
  norm_num [opReturn, opConstant, opNegate, opAdd]
  rw [peekV_zero _ (rest ++ [.numberV na]) (.numberV nb) (by simp [hs]),
      peekV_one _ rest (.numberV na) (.numberV nb) (by simp [hs])]
  simp only []
  rw [popV_concat _ (rest ++ [.numberV na]) (.numberV nb) (by simp [hs])]
  simp only []
  rw [popV_concat _ rest (.numberV na) (by simp)]
  simp [Vm.push, hs, GoFloat.add_comm nb na]

/-- Executing `OP_ADD` on two strings: the left operand comes first in
the concatenation. -/
theorem stepInstr_opAdd_strings (vm : VmState) (rest : List Value)
    (sa sb : List Char)
    (hc : vm.chunk.code.get? vm.ip = some opAdd)
    (hs : vm.stack = rest ++ [.stringV sa, .stringV sb]) :
    Vm.stepInstr vm = some (.next
      { vm with stack := rest ++ [.stringV (sa ++ sb)],
                ip := vm.ip + 1,
                traceOut := vm.traceOut ++ [(vm.stack, vm.ip)] }) := by
  unfold Vm.stepInstr
  rw [readByte_eq { vm with traceOut := vm.traceOut ++ [(vm.stack, vm.ip)] } opAdd hc]
  norm_num [opReturn, opConstant, opNegate, opAdd]
  rw [peekV_zero _ (rest ++ [.stringV sa]) (.stringV sb) (by simp [hs]),
      peekV_one _ rest (.stringV sa) (.stringV sb) (by simp [hs])]
  simp only []
  rw [popV_concat _ (rest ++ [.stringV sa]) (.stringV sb) (by simp [hs])]
  simp only []
  rw [popV_concat _ rest (.stringV sa) (by simp)]
  simp [Vm.push, hs]

/-- Executing `OP_ADD` on a pair that is neither two numbers nor two
strings raises the runtime error. -/
theorem stepInstr_opAdd_mismatch (vm : VmState) (rest : List Value)
    (a b : Value) (L : Nat)
    (hc : vm.chunk.code.get? vm.ip = some opAdd)
    (hs : vm.stack = rest ++ [a, b])
    (hl : vm.chunk.lines.get? vm.ip = some L)
    (hnum : ¬ (a.variant = 2 ∧ b.variant = 2))
    (hstr : ¬ (a.variant = 3 ∧ b.variant = 3)) :
    Vm.stepInstr vm = some (.halt .runtimeError
      (Vm.runtimeErrorApply "Operands must be two numbers or two strings." L
        { vm with ip := vm.ip + 1,
                  traceOut := vm.traceOut ++ [(vm.stack, vm.ip)] })) := by
  unfold Vm.stepInstr
  rw [readByte_eq { vm with traceOut := vm.traceOut ++ [(vm.stack, vm.ip)] } opAdd hc]
  norm_num [opReturn, opConstant, opNegate, opAdd]
  rw [peekV_zero _ (rest ++ [a]) b (by simp [hs]),
      peekV_one _ rest a b (by simp [hs])]
  simp only []
  cases a <;> cases b <;>
    simp_all [Value.variant, Vm.raiseRT, Nat.add_sub_cancel]

/-- Executing `OP_DEFINE_GLOBAL` pops the value and writes it to the
globals map unconditionally. -/
theorem stepInstr_opDefineGlobal (vm : VmState) (rest : List Value)
    (name : List Char) (cIdx : Nat) (v : Value)
    (hc : vm.chunk.code.get? vm.ip = some opDefineGlobal)
    (hoperand : vm.chunk.code.get? (vm.ip + 1) = some cIdx)
    (hconst : vm.chunk.constants.get? cIdx = some (.stringV name))
    (hs : vm.stack = rest ++ [v]) :
    Vm.stepInstr vm = some (.next
      { vm with stack := rest,
                ip := vm.ip + 2,
                globals := Vm.globalsSet vm.globals name v,
                traceOut := vm.traceOut ++ [(vm.stack, vm.ip)] }) := by
  unfold Vm.stepInstr
  rw [readByte_eq { vm with traceOut := vm.traceOut ++ [(vm.stack, vm.ip)] }
        opDefineGlobal hc]
  norm_num [opReturn, opConstant, opNegate, opAdd, opSubtract, opMultiply,
    opDivide, opGreater, opLess, opGreaterEqual, opLessEqual, opNil, opTrue,
    opFalse, opNot, opEqual, opNotEqual, opPrint, opPop, opDefineGlobal]
  rw [readConstant_eq _ cIdx (.stringV name) (by simpa using hoperand) (by simpa using hconst)]
  simp only []
  rw [popV_concat _ rest v (by simp [hs])]

/-- Claim C6: `OP_EQUAL`/`OP_NOT_EQUAL` never raise a runtime error
(they step normally, popping two values and pushing a Bool); values of
different variants compare unequal; within a variant `Nil == Nil`,
booleans compare by value, numbers by IEEE-754 equality (`NaN == NaN`
is false), strings by byte content; and `v == v` is true for every
non-Number value. -/
theorem C6_equality_semantics :
    (∀ (vm : VmState) (rest : List Value) (a b : Value),
        vm.chunk.code.get? vm.ip = some opEqual →
        vm.stack = rest ++ [a, b] →
        Vm.stepInstr vm = some (.next
          { vm with stack := rest ++ [.boolV (Value.valueEq a b)],
                    ip := vm.ip + 1,
                    traceOut := vm.traceOut ++ [(vm.stack, vm.ip)] })) ∧
    (∀ (vm : VmState) (rest : List Value) (a b : Value),
        vm.chunk.code.get? vm.ip = some opNotEqual →
        vm.stack = rest ++ [a, b] →
        Vm.stepInstr vm = some (.next
          { vm with stack := rest ++ [.boolV (! Value.valueEq a b)],
                    ip := vm.ip + 1,
                    traceOut := vm.traceOut ++ [(vm.stack, vm.ip)] })) ∧
    (∀ a b : Value, a.variant ≠ b.variant → Value.valueEq a b = false) ∧
    (Value.valueEq .nilV .nilV = true) ∧
    (∀ b1 b2 : Bool, Value.valueEq (.boolV b1) (.boolV b2) = true ↔ b1 = b2) ∧
    (∀ q r : ℚ,
        Value.valueEq (.numberV (.finite q)) (.numberV (.finite r)) = true ↔ q = r) ∧
    (Value.valueEq (.numberV .nan) (.numberV .nan) = false) ∧
    (∀ s t : List Char, Value.valueEq (.stringV s) (.stringV t) = true ↔ s = t) ∧
    (∀ v : Value, v.variant ≠ 2 → Value.valueEq v v = true) := by
  refine ⟨stepInstr_opEqual, stepInstr_opNotEqual, ?_, rfl, ?_, ?_, rfl, ?_, ?_⟩
  · intro a b h
    cases a <;> cases b <;> simp_all [Value.valueEq, Value.variant]
  · intro b1 b2
    simp [Value.valueEq]
  · intro q r
    simp [Value.valueEq, GoFloat.ieeeEq]
  · intro s t
    simp [Value.valueEq]
  · intro v h
    cases v <;> simp_all [Value.valueEq, Value.variant, GoFloat.ieeeEq]

/-- Witness for C6 at concrete inputs. -/
theorem C6_equality_semantics_witness :
    Vm.stepInstr ⟨⟨[opEqual], [], [1]⟩, 0, [.nilV, .nilV], [], [], [], []⟩ =
      some (.next ⟨⟨[opEqual], [], [1]⟩, 1, [.boolV true], [], [], [],
                   [([.nilV, .nilV], 0)]⟩) ∧
    Value.valueEq (.boolV true) .nilV = false ∧
    Value.valueEq (.stringV ['a']) (.stringV ['a']) = true := by
  refine ⟨?_, ?_, ?_⟩
  · have h := C6_equality_semantics.1
      ⟨⟨[opEqual], [], [1]⟩, 0, [.nilV, .nilV], [], [], [], []⟩
      [] .nilV .nilV rfl rfl
    simpa using h
  · exact C6_equality_semantics.2.2.1 (.boolV true) .nilV (by decide)
  · exact C6_equality_semantics.2.2.2.2.2.2.2.2 (.stringV ['a']) (by decide)

/-- Claim C7: `OP_ADD` on two numbers pops both and pushes their sum,
on two strings pops both and pushes the concatenation (left operand
first), and on any other pair raises the runtime error "Operands must
be two numbers or two strings." without pushing anything (the error
reset leaves an empty stack). -/
theorem C7_add_semantics :
    (∀ (vm : VmState) (rest : List Value) (na nb : GoFloat),
        vm.chunk.code.get? vm.ip = some opAdd →
        vm.stack = rest ++ [.numberV na, .numberV nb] →
        Vm.stepInstr vm = some (.next
          { vm with stack := rest ++ [.numberV (GoFloat.add na nb)],
                    ip := vm.ip + 1,
                    traceOut := vm.traceOut ++ [(vm.stack, vm.ip)] })) ∧
    (∀ (vm : VmState) (rest : List Value) (sa sb : List Char),
        vm.chunk.code.get? vm.ip = some opAdd →
        vm.stack = rest ++ [.stringV sa, .stringV sb] →
        Vm.stepInstr vm = some (.next
          { vm with stack := rest ++ [.stringV (sa ++ sb)],
                    ip := vm.ip + 1,
                    traceOut := vm.traceOut ++ [(vm.stack, vm.ip)] })) ∧
    (∀ (vm : VmState) (rest : List Value) (a b : Value) (L : Nat),
        vm.chunk.code.get? vm.ip = some opAdd →
        vm.stack = rest ++ [a, b] →
        vm.chunk.lines.get? vm.ip = some L →
        ¬ (a.variant = 2 ∧ b.variant = 2) →
        ¬ (a.variant = 3 ∧ b.variant = 3) →
        Vm.stepInstr vm = some (.halt .runtimeError
          (Vm.runtimeErrorApply "Operands must be two numbers or two strings." L
            { vm with ip := vm.ip + 1,
                      traceOut := vm.traceOut ++ [(vm.stack, vm.ip)] }))) :=
  ⟨stepInstr_opAdd_numbers, stepInstr_opAdd_strings, stepInstr_opAdd_mismatch⟩

/-- Witness for C7 at concrete inputs. -/
theorem C7_add_semantics_witness :
    Vm.stepInstr ⟨⟨[opAdd], [], [1]⟩, 0,
        [.numberV (.finite 1), .numberV (.finite 2)], [], [], [], []⟩ =
      some (.next ⟨⟨[opAdd], [], [1]⟩, 1, [.numberV (.finite 3)], [], [], [],
                   [([.numberV (.finite 1), .numberV (.finite 2)], 0)]⟩) ∧
    Vm.stepInstr ⟨⟨[opAdd], [], [1]⟩, 0,
        [.stringV ['h'], .stringV ['i']], [], [], [], []⟩ =
      some (.next ⟨⟨[opAdd], [], [1]⟩, 1, [.stringV ['h', 'i']], [], [], [],
                   [([.stringV ['h'], .stringV ['i']], 0)]⟩) ∧
    Vm.stepInstr ⟨⟨[opAdd], [], [7]⟩, 0,
        [.nilV, .numberV (.finite 1)], [], [], [], []⟩ =
      some (.halt .runtimeError
        ⟨newChunk, 0, [], [],
         ["[line 7] in script\n"],
         ["Operands must be two numbers or two strings.", "\n"],
         [([.nilV, .numberV (.finite 1)], 0)]⟩) := by
  refine ⟨?_, ?_, ?_⟩
  · have h := C7_add_semantics.1
      ⟨⟨[opAdd], [], [1]⟩, 0, [.numberV (.finite 1), .numberV (.finite 2)],
       [], [], [], []⟩ [] (.finite 1) (.finite 2) rfl rfl
    simpa [GoFloat.add, show (1 : ℚ) + 2 = 3 from by norm_num] using h
  · have h := C7_add_semantics.2.1
      ⟨⟨[opAdd], [], [1]⟩, 0, [.stringV ['h'], .stringV ['i']],
       [], [], [], []⟩ [] ['h'] ['i'] rfl rfl
    simpa using h
  · have h := C7_add_semantics.2.2
      ⟨⟨[opAdd], [], [7]⟩, 0, [.nilV, .numberV (.finite 1)],
       [], [], [], []⟩ [] .nilV (.numberV (.finite 1)) 7 rfl rfl rfl
      (by decide) (by decide)
    simpa [Vm.runtimeErrorApply, Vm.resetVm] using h

/-- Claim C9: `OP_DEFINE_GLOBAL` unconditionally overwrites an existing
binding of the same name with the popped value, and the program
`var a = 1; var a = 2;` interprets successfully leaving `a` bound
to 2. -/
theorem C9_define_global_overwrites :
    (∀ (vm : VmState) (rest : List Value) (name : List Char)
        (cIdx : Nat) (v old : Value),
        vm.chunk.code.get? vm.ip = some opDefineGlobal →
        vm.chunk.code.get? (vm.ip + 1) = some cIdx →
        vm.chunk.constants.get? cIdx = some (.stringV name) →
        vm.stack = rest ++ [v] →
        Vm.globalsGet vm.globals name = some old →
        Vm.stepInstr vm = some (.next
          { vm with stack := rest,
                    ip := vm.ip + 2,
                    globals := Vm.globalsSet vm.globals name v,
                    traceOut := vm.traceOut ++ [(vm.stack, vm.ip)] }) ∧
        Vm.globalsGet (Vm.globalsSet vm.globals name v) name = some v) ∧
    (Vm.interpret 100 newVm redefineSource).map
        (fun p => (p.1, Vm.globalsGet p.2.globals ['a'])) =
      some (.ok, some (.numberV (.finite 2))) := by
  refine ⟨?_, ?_⟩
  · intro vm rest name cIdx v old hc hop hconst hs _hold
    exact ⟨stepInstr_opDefineGlobal vm rest name cIdx v hc hop hconst hs,
           globalsGet_globalsSet_self vm.globals name v⟩
  · rfl

/-- Witness for C9 at a concrete state whose globals already bind the
name. -/
theorem C9_define_global_overwrites_witness :
    Vm.stepInstr ⟨⟨[opDefineGlobal, 0], [.stringV ['a']], [1, 1]⟩, 0,
        [.numberV (.finite 2)], [(['a'], .numberV (.finite 1))], [], [], []⟩ =
      some (.next ⟨⟨[opDefineGlobal, 0], [.stringV ['a']], [1, 1]⟩, 2,
        [], [(['a'], .numberV (.finite 2))], [], [],
        [([.numberV (.finite 2)], 0)]⟩) ∧
    Vm.globalsGet (Vm.globalsSet [(['a'], .numberV (.finite 1))] ['a']
        (.numberV (.finite 2))) ['a'] = some (.numberV (.finite 2)) := by
  have h := C9_define_global_overwrites.1
    ⟨⟨[opDefineGlobal, 0], [.stringV ['a']], [1, 1]⟩, 0,
     [.numberV (.finite 2)], [(['a'], .numberV (.finite 1))], [], [], []⟩
    [] ['a'] 0 (.numberV (.finite 2)) (.numberV (.finite 1))
    rfl rfl rfl rfl rfl
  exact ⟨by simpa [Vm.globalsSet] using h.1, h.2⟩

/-! ### Compiler state lemmas -/

/-- The chunk-length invariant of claim C5. -/
def chunkInv (st : CompState) : Prop :=
  st.chunk.code.length = st.chunk.lines.length

theorem errorAt_chunk (tok : Token) (m : String) (st : CompState) :
    (Comp.errorAt tok m st).chunk = st.chunk := by
  unfold Comp.errorAt
  split <;> rfl

theorem errorAtCurrent_chunk (m : String) (st : CompState) :
    (Comp.errorAtCurrent m st).chunk = st.chunk := errorAt_chunk _ _ _

theorem errorAtPrev_chunk (m : String) (st : CompState) :
    (Comp.errorAtPrev m st).chunk = st.chunk := errorAt_chunk _ _ _

theorem errorAt_previous (tok : Token) (m : String) (st : CompState) :
    (Comp.errorAt tok m st).previous = st.previous := by
  unfold Comp.errorAt
  split <;> rfl

theorem advanceLoop_chunk (fuel : Nat) (st : CompState) :
    (Comp.advanceLoop fuel st).chunk = st.chunk := by
  induction fuel generalizing st with
  | zero => rfl
  | succ n ih =>
      unfold Comp.advanceLoop
      split
      dsimp only []
      split
      · rfl
      · rw [ih, errorAtCurrent_chunk]

theorem advanceC_chunk (st : CompState) :
    (Comp.advanceC st).chunk = st.chunk := by
  unfold Comp.advanceC
  rw [advanceLoop_chunk]

theorem advanceLoop_previous (fuel : Nat) (st : CompState) :
    (Comp.advanceLoop fuel st).previous = st.previous := by
  induction fuel generalizing st with
  | zero => rfl
  | succ n ih =>
      unfold Comp.advanceLoop
      split
      dsimp only []
      split
      · rfl
      · rw [ih]
        exact errorAt_previous _ _ _

theorem advanceC_previous (st : CompState) :
    (Comp.advanceC st).previous = st.current := by
  unfold Comp.advanceC
  rw [advanceLoop_previous]

theorem consume_chunk (tt : TokenType) (m : String) (st : CompState) :
    (Comp.consume tt m st).chunk = st.chunk := by
  unfold Comp.consume
  split
  · exact advanceC_chunk _
  · exact errorAtCurrent_chunk _ _

theorem matchT_snd_chunk (tt : TokenType) (st : CompState) (b : Bool)
    (st' : CompState) (h : Comp.matchT tt st = (b, st')) :
    st'.chunk = st.chunk := by
  unfold Comp.matchT at h
  split at h
  · cases h; rfl
  · cases h; exact advanceC_chunk _

theorem syncLoop_chunk (fuel : Nat) (st : CompState) :
    (Comp.syncLoop fuel st).chunk = st.chunk := by
  induction fuel generalizing st with
  | zero => rfl
  | succ n ih =>
      unfold Comp.syncLoop
      split
      · rfl
      · split
        · rfl
        · split <;> first | rfl | rw [ih, advanceC_chunk]

theorem synchronize_chunk (st : CompState) :
    (Comp.synchronize st).chunk = st.chunk := by
  unfold Comp.synchronize
  rw [syncLoop_chunk]

theorem declareCheck_chunk (name : Token) (depth : Int)
    (ls : List LocalVar) (st : CompState) :
    (Comp.declareCheck name depth ls st).chunk = st.chunk := by
  induction ls generalizing st with
  | nil => rfl
  | cons l rest ih =>
      unfold Comp.declareCheck
      split
      · rfl
      · rw [ih]
        split
        · exact errorAtPrev_chunk _ _
        · rfl

theorem declareVariable_chunk (st : CompState) :
    (Comp.declareVariable st).chunk = st.chunk := by
  unfold Comp.declareVariable
  split
  · rfl
  · unfold Comp.addLocal
    rw [show ({ Comp.declareCheck st.previous st.scopeDepth st.locals.reverse st with
          locals := (Comp.declareCheck st.previous st.scopeDepth st.locals.reverse st).locals ++
            [⟨st.previous, -1⟩] } : CompState).chunk =
        (Comp.declareCheck st.previous st.scopeDepth st.locals.reverse st).chunk from rfl]
    exact declareCheck_chunk _ _ _ _

theorem markInitialized_chunk (st : CompState) :
    (Comp.markInitialized st).chunk = st.chunk := by
  unfold Comp.markInitialized
  split <;> rfl

theorem identifierConstant_snd (tok : Token) (st : CompState) (i : Nat)
    (st' : CompState) (h : Comp.identifierConstant tok st = (i, st')) :
    st'.chunk.code = st.chunk.code ∧ st'.chunk.lines = st.chunk.lines := by
  unfold Comp.identifierConstant Comp.makeConstant Chunk.addConstant at h
  cases h
  exact ⟨rfl, rfl⟩

theorem parseVariable_snd (m : String) (st : CompState) (g : Nat)
    (st' : CompState) (h : Comp.parseVariable m st = (g, st')) :
    st'.chunk.code = st.chunk.code ∧ st'.chunk.lines = st.chunk.lines := by
  simp only [Comp.parseVariable] at h
  split at h
  · cases h
    rw [declareVariable_chunk, consume_chunk]
    exact ⟨rfl, rfl⟩
  · have h2 := identifierConstant_snd _ _ _ _ h
    rw [declareVariable_chunk, consume_chunk] at h2
    exact h2

theorem resolveLocal_snd_chunk (tok : Token) (st : CompState) (i : Int)
    (st' : CompState) (h : Comp.resolveLocal tok st = (i, st')) :
    st'.chunk = st.chunk := by
  unfold Comp.resolveLocal at h
  split at h
  · cases h; rfl
  · split at h
    · split at h
      · cases h; exact errorAtPrev_chunk _ _
      · cases h; rfl
    · cases h; rfl

theorem chunkInv_emitByte (b : Nat) (st : CompState) (h : chunkInv st) :
    chunkInv (Comp.emitByte b st) := by
  unfold chunkInv at h ⊢
  simp [Comp.emitByte, Chunk.write, h]

theorem chunkInv_emitBytes (b1 b2 : Nat) (st : CompState) (h : chunkInv st) :
    chunkInv (Comp.emitBytes b1 b2 st) :=
  chunkInv_emitByte _ _ (chunkInv_emitByte _ _ h)

theorem chunkInv_emitConstant (v : Value) (st : CompState) (h : chunkInv st) :
    chunkInv (Comp.emitConstant v st) := by
  simp only [Comp.emitConstant, Comp.makeConstant, Chunk.addConstant]
  exact chunkInv_emitBytes _ _ _ h

theorem chunkInv_defineVariable (g : Nat) (st : CompState) (h : chunkInv st) :
    chunkInv (Comp.defineVariable g st) := by
  unfold Comp.defineVariable
  split
  · unfold chunkInv
    rw [markInitialized_chunk]
    exact h
  · exact chunkInv_emitBytes _ _ _ h

theorem chunkInv_endScopeLoop (fuel : Nat) (st : CompState) (h : chunkInv st) :
    chunkInv (Comp.endScopeLoop fuel st) := by
  induction fuel generalizing st with
  | zero => exact h
  | succ n ih =>
      unfold Comp.endScopeLoop
      split
      · split
        · exact ih _ (chunkInv_emitByte _ _ h)
        · exact h
      · exact h

theorem chunkInv_endScope (st : CompState) (h : chunkInv st) :
    chunkInv (Comp.endScope st) :=
  chunkInv_endScopeLoop _ _ h

theorem chunkInv_literalRule (st : CompState) (h : chunkInv st) :
    chunkInv (Comp.literalRule st) := by
  unfold Comp.literalRule
  split <;> first | exact chunkInv_emitByte _ _ h | exact h

/-- Unpacking `CompRes.bind` results. -/
theorem CompRes.bind_eq_ok (r : CompRes) (f : CompState → CompRes)
    (st' : CompState) (h : r.bind f = .ok st') :
    ∃ stm, r = .ok stm ∧ f stm = .ok st' := by
  cases r with
  | ok stm => exact ⟨stm, rfl, h⟩
  | outOfFuel => cases h
  | nilDeref => cases h

theorem chunkInv_of_chunk_eq {st st' : CompState} (h : st'.chunk = st.chunk)
    (hi : chunkInv st) : chunkInv st' := by
  unfold chunkInv at hi ⊢
  rw [h]
  exact hi

theorem chunkInv_numberRule (st : CompState) (h : chunkInv st) :
    chunkInv (Comp.numberRule st) := chunkInv_emitConstant _ _ h

theorem chunkInv_stringRule (st : CompState) (h : chunkInv st) :
    chunkInv (Comp.stringRule st) := chunkInv_emitConstant _ _ h

/-- Every compiler procedure preserves the `|code| = |lines|`
invariant: the only chunk writes go through `Write` (one byte, one line
entry) and `AddConstant` (which touches neither sequence). -/
theorem compStep_chunkInv :
    ∀ (n : Nat) (c : CompFn) (st st' : CompState),
      compStep n c st = .ok st' → chunkInv st → chunkInv st' := by
  intro n
  induction n with
  | zero => intro c st st' h _; cases h
  | succ n ih =>
      intro c st st' h hinv
      cases c with
      | compileLoop =>
          simp only [compStep] at h
          rcases hm : Comp.matchT .eof st with ⟨m, st₁⟩
          rw [hm] at h
          simp only [] at h
          have h1inv := chunkInv_of_chunk_eq (matchT_snd_chunk _ _ _ _ hm) hinv
          split at h
          · cases h; exact h1inv
          · obtain ⟨stm, h1, h2⟩ := CompRes.bind_eq_ok _ _ _ h
            exact ih .compileLoop stm st' h2 (ih .declaration st₁ stm h1 h1inv)
      | declaration =>
          simp only [compStep] at h
          rcases hm : Comp.matchT .varKw st with ⟨m, st₁⟩
          rw [hm] at h
          simp only [] at h
          have h1inv := chunkInv_of_chunk_eq (matchT_snd_chunk _ _ _ _ hm) hinv
          obtain ⟨stm, h1, h2⟩ := CompRes.bind_eq_ok _ _ _ h
          have hminv : chunkInv stm := by
            split at h1
            · exact ih .varDeclaration st₁ stm h1 h1inv
            · exact ih .statement st₁ stm h1 h1inv
          cases h2
          split
          · exact chunkInv_of_chunk_eq (synchronize_chunk _) hminv
          · exact hminv
      | varDeclaration =>
          simp only [compStep] at h
          rcases hp : Comp.parseVariable "Expect variable name." st with ⟨g, st₁⟩
          rw [hp] at h
          simp only [] at h
          have h1inv : chunkInv st₁ := by
            obtain ⟨hcode, hlines⟩ := parseVariable_snd _ _ _ _ hp
            unfold chunkInv at hinv ⊢
            rw [hcode, hlines]
            exact hinv
          rcases hm : Comp.matchT .equal st₁ with ⟨m, st₂⟩
          rw [hm] at h
          simp only [] at h
          have h2inv := chunkInv_of_chunk_eq (matchT_snd_chunk _ _ _ _ hm) h1inv
          obtain ⟨stm, h1, h2⟩ := CompRes.bind_eq_ok _ _ _ h
          have hminv : chunkInv stm := by
            split at h1
            · exact ih .expression st₂ stm h1 h2inv
            · cases h1; exact chunkInv_emitByte _ _ h2inv
          cases h2
          exact chunkInv_defineVariable _ _
            (chunkInv_of_chunk_eq (consume_chunk _ _ _) hminv)
      | statement =>
          simp only [compStep] at h
          rcases hm : Comp.matchT .printKw st with ⟨m, st₁⟩
          rw [hm] at h
          simp only [] at h
          have h1inv := chunkInv_of_chunk_eq (matchT_snd_chunk _ _ _ _ hm) hinv
          split at h
          · exact ih .printStatement st₁ st' h h1inv
          · rcases hm₂ : Comp.matchT .leftBrace st₁ with ⟨m₂, st₂⟩
            rw [hm₂] at h
            simp only [] at h
            have h2inv := chunkInv_of_chunk_eq (matchT_snd_chunk _ _ _ _ hm₂) h1inv
            split at h
            · obtain ⟨stm, h1, h2⟩ := CompRes.bind_eq_ok _ _ _ h
              have hminv := ih .blockLoop _ stm h1
                (chunkInv_of_chunk_eq (show (Comp.beginScope st₂).chunk = st₂.chunk from rfl) h2inv)
              cases h2
              exact chunkInv_endScope _
                (chunkInv_of_chunk_eq (consume_chunk _ _ _) hminv)
            · exact ih .expressionStatement st₂ st' h h2inv
      | blockLoop =>
          simp only [compStep] at h
          split at h
          · obtain ⟨stm, h1, h2⟩ := CompRes.bind_eq_ok _ _ _ h
            exact ih .blockLoop stm st' h2 (ih .declaration st stm h1 hinv)
          · cases h; exact hinv
      | printStatement =>
          simp only [compStep] at h
          obtain ⟨stm, h1, h2⟩ := CompRes.bind_eq_ok _ _ _ h
          cases h2
          exact chunkInv_emitByte _ _
            (chunkInv_of_chunk_eq (consume_chunk _ _ _) (ih .expression st stm h1 hinv))
      | expressionStatement =>
          simp only [compStep] at h
          obtain ⟨stm, h1, h2⟩ := CompRes.bind_eq_ok _ _ _ h
          cases h2
          exact chunkInv_emitByte _ _
            (chunkInv_of_chunk_eq (consume_chunk _ _ _) (ih .expression st stm h1 hinv))
      | expression =>
          simp only [compStep] at h
          exact ih _ _ _ h hinv
      | parsePrec p =>
          simp only [compStep] at h
          have hadv := chunkInv_of_chunk_eq (advanceC_chunk st) hinv
          split at h
          · cases h
            exact chunkInv_of_chunk_eq (errorAtPrev_chunk _ _) hadv
          · obtain ⟨stm, h1, h2⟩ := CompRes.bind_eq_ok _ _ _ h
            have hminv : chunkInv stm := by
              rename_i pf _
              cases pf
              · exact ih .groupingRule _ _ h1 hadv
              · exact ih .unaryRule _ _ h1 hadv
              · cases h1; exact chunkInv_numberRule _ hadv
              · cases h1; exact chunkInv_stringRule _ hadv
              · cases h1; exact chunkInv_literalRule _ hadv
              · exact ih (.namedVariable _ _) _ _ h1 hadv
            obtain ⟨stm₂, h3, h4⟩ := CompRes.bind_eq_ok _ _ _ h2
            have h2inv := ih (.infixLoop p _) _ _ h3 hminv
            split at h4
            · rcases hm : Comp.matchT .equal stm₂ with ⟨m, st₃⟩
              rw [hm] at h4
              simp only [] at h4
              have h3inv := chunkInv_of_chunk_eq (matchT_snd_chunk _ _ _ _ hm) h2inv
              split at h4
              · cases h4
                exact chunkInv_of_chunk_eq (errorAtPrev_chunk _ _) h3inv
              · cases h4; exact h3inv
            · cases h4; exact h2inv
      | infixLoop p ca =>
          simp only [compStep] at h
          split at h
          · split at h
            · cases h
            · obtain ⟨stm, h1, h2⟩ := CompRes.bind_eq_ok _ _ _ h
              have h0 := chunkInv_of_chunk_eq (advanceC_chunk st) hinv
              exact ih (.infixLoop p ca) _ _ h2 (ih .binaryRule _ _ h1 h0)
          · cases h; exact hinv
      | binaryRule =>
          simp only [compStep] at h
          obtain ⟨stm, h1, h2⟩ := CompRes.bind_eq_ok _ _ _ h
          have hminv := ih (.parsePrec _) _ _ h1 hinv
          cases h2
          split <;> first | exact chunkInv_emitByte _ _ hminv | exact hminv
      | unaryRule =>
          simp only [compStep] at h
          obtain ⟨stm, h1, h2⟩ := CompRes.bind_eq_ok _ _ _ h
          have hminv := ih (.parsePrec _) _ _ h1 hinv
          cases h2
          split <;> first | exact chunkInv_emitByte _ _ hminv | exact hminv
      | groupingRule =>
          simp only [compStep] at h
          obtain ⟨stm, h1, h2⟩ := CompRes.bind_eq_ok _ _ _ h
          cases h2
          exact chunkInv_of_chunk_eq (consume_chunk _ _ _) (ih .expression st stm h1 hinv)
      | namedVariable tok ca =>
          simp only [compStep] at h
          rcases hr : Comp.resolveLocal tok st with ⟨arg, st₁⟩
          rw [hr] at h
          simp only [] at h
          have h1inv := chunkInv_of_chunk_eq (resolveLocal_snd_chunk _ _ _ _ hr) hinv
          by_cases harg : arg ≠ -1
          · rw [if_pos harg] at h
            simp only [] at h
            split at h
            · rcases hm : Comp.matchT .equal st₁ with ⟨m, st₃⟩
              rw [hm] at h
              simp only [] at h
              have h3inv := chunkInv_of_chunk_eq (matchT_snd_chunk _ _ _ _ hm) h1inv
              split at h
              · obtain ⟨stm, h1, h2⟩ := CompRes.bind_eq_ok _ _ _ h
                cases h2
                exact chunkInv_emitBytes _ _ _ (ih .expression _ _ h1 h3inv)
              · cases h; exact chunkInv_emitBytes _ _ _ h3inv
            · cases h; exact chunkInv_emitBytes _ _ _ h1inv
          · rw [if_neg harg] at h
            rcases hic : Comp.identifierConstant tok st₁ with ⟨a, st₂⟩
            rw [hic] at h
            simp only [] at h
            have h2inv : chunkInv st₂ := by
              obtain ⟨hcode, hlines⟩ := identifierConstant_snd _ _ _ _ hic
              unfold chunkInv at h1inv ⊢
              rw [hcode, hlines]
              exact h1inv
            split at h
            · rcases hm : Comp.matchT .equal st₂ with ⟨m, st₃⟩
              rw [hm] at h
              simp only [] at h
              have h3inv := chunkInv_of_chunk_eq (matchT_snd_chunk _ _ _ _ hm) h2inv
              split at h
              · obtain ⟨stm, h1, h2⟩ := CompRes.bind_eq_ok _ _ _ h
                cases h2
                exact chunkInv_emitBytes _ _ _ (ih .expression _ _ h1 h3inv)
              · cases h; exact chunkInv_emitBytes _ _ _ h3inv
            · cases h; exact chunkInv_emitBytes _ _ _ h2inv

/-- `bind` cannot introduce a nil dereference. -/
theorem CompRes.bind_ne_nilDeref (r : CompRes) (f : CompState → CompRes)
    (hr : r ≠ .nilDeref) (hf : ∀ st, f st ≠ .nilDeref) :
    r.bind f ≠ .nilDeref := by
  cases r with
  | ok st => exact hf st
  | outOfFuel => simp [CompRes.bind]
  | nilDeref => exact absurd rfl hr

/-- Every token whose table entry carries a positive precedence also
carries an infix rule. -/
theorem getRule_pos_infixFn (t : TokenType)
    (h : 1 ≤ (getRule t).precedence) : (getRule t).infixFn ≠ none := by
  cases t <;> revert h <;> decide

/-- No compiler procedure, run with its actual precedence discipline,
ever reaches the nil-infix-rule dereference. -/
theorem compStep_ne_nilDeref :
    ∀ (n : Nat) (c : CompFn) (st : CompState),
      noNilPre c → compStep n c st ≠ .nilDeref := by
  intro n
  induction n with
  | zero => intro c st _ h; cases h
  | succ n ih =>
      intro c st hpre
      cases c with
      | compileLoop =>
          simp only [compStep]
          split
          · simp
          · exact CompRes.bind_ne_nilDeref _ _ (ih .declaration _ trivial)
              (fun stm => ih .compileLoop stm trivial)
      | declaration =>
          simp only [compStep]
          apply CompRes.bind_ne_nilDeref
          · split
            · exact ih .varDeclaration _ trivial
            · exact ih .statement _ trivial
          · intro stm; simp
      | varDeclaration =>
          simp only [compStep]
          split
          · exact CompRes.bind_ne_nilDeref _ _ (ih .expression _ trivial)
              (fun stm => by simp)
          · simp [CompRes.bind]
      | statement =>
          simp only [compStep]
          split
          · exact ih .printStatement _ trivial
          · split
            · exact CompRes.bind_ne_nilDeref _ _ (ih .blockLoop _ trivial)
                (fun stm => by simp)
            · exact ih .expressionStatement _ trivial
      | blockLoop =>
          simp only [compStep]
          split
          · exact CompRes.bind_ne_nilDeref _ _ (ih .declaration _ trivial)
              (fun stm => ih .blockLoop stm trivial)
          · simp
      | printStatement =>
          simp only [compStep]
          exact CompRes.bind_ne_nilDeref _ _ (ih .expression _ trivial)
            (fun stm => by simp)
      | expressionStatement =>
          simp only [compStep]
          exact CompRes.bind_ne_nilDeref _ _ (ih .expression _ trivial)
            (fun stm => by simp)
      | expression =>
          simp only [compStep]
          exact ih (.parsePrec precedenceAssignment) st
            (show (1 : Nat) ≤ precedenceAssignment by norm_num [precedenceAssignment])
      | parsePrec p =>
          simp only [compStep]
          split
          · simp
          · apply CompRes.bind_ne_nilDeref
            · rename_i pf _
              cases pf
              · exact ih .groupingRule _ trivial
              · exact ih .unaryRule _ trivial
              · simp
              · simp
              · simp
              · exact ih (.namedVariable _ _) _ trivial
            · intro st₂
              apply CompRes.bind_ne_nilDeref
              · exact ih (.infixLoop p _) _ hpre
              · intro st₃
                split
                · split <;> simp
                · simp
      | infixLoop p ca =>
          simp only [compStep]
          split
          · rename_i hguard
            have hpos : 1 ≤ (getRule st.current.tokenType).precedence :=
              le_trans hpre hguard
            have hinfixFn := getRule_pos_infixFn _ hpos
            split
            · rename_i heq
              rw [advanceC_previous] at heq
              exact absurd heq hinfixFn
            · exact CompRes.bind_ne_nilDeref _ _ (ih .binaryRule _ trivial)
                (fun stm => ih (.infixLoop p ca) stm hpre)
          · simp
      | binaryRule =>
          simp only [compStep]
          exact CompRes.bind_ne_nilDeref _ _
            (ih (.parsePrec _) _ (Nat.succ_le_succ (Nat.zero_le _)))
            (fun stm => by split <;> simp)
      | unaryRule =>
          simp only [compStep]
          exact CompRes.bind_ne_nilDeref _ _
            (ih (.parsePrec precedenceUnary) _
              (show (1 : Nat) ≤ precedenceUnary by norm_num [precedenceUnary]))
            (fun stm => by split <;> simp)
      | groupingRule =>
          simp only [compStep]
          exact CompRes.bind_ne_nilDeref _ _ (ih .expression _ trivial)
            (fun stm => by simp)
      | namedVariable tok ca =>
          simp only [compStep]
          split
          · split
            · split
              · exact CompRes.bind_ne_nilDeref _ _ (ih .expression _ trivial)
                  (fun stm => by simp)
              · simp
            · split
              · exact CompRes.bind_ne_nilDeref _ _ (ih .expression _ trivial)
                  (fun stm => by simp)
              · simp
          · simp

/-- Claim C10: every parse-table entry with a precedence above `None`
supplies an infix rule, and consequently no compilation, for any input
whatsoever, ever dereferences a nil infix rule (the `nilDeref` outcome
is unreachable). -/
theorem C10_infix_dispatch_safety :
    (∀ t : TokenType,
        precedenceNone < (getRule t).precedence → (getRule t).infixFn ≠ none) ∧
    (∀ (n : Nat) (source : List Char) (ck : Chunk),
        compileFuel n source ck ≠ .nilDeref) := by
  constructor
  · intro t
    cases t <;> decide
  · intro n source ck
    unfold compileFuel
    exact CompRes.bind_ne_nilDeref _ _
      (compStep_ne_nilDeref _ .compileLoop _ trivial) (fun st => by simp)

/-- Witness for C10 at a concrete token and a concrete compilation. -/
theorem C10_infix_dispatch_safety_witness :
    (getRule .plus).infixFn ≠ none ∧
    compileFuel 5 [] newChunk ≠ .nilDeref :=
  ⟨C10_infix_dispatch_safety.1 .plus (by decide),
   C10_infix_dispatch_safety.2 5 [] newChunk⟩

/-- Claim C5: `Write` appends exactly one byte to `code` and one entry
to `lines`; `AddConstant` changes neither; hence every chunk the
compiler builds (from a chunk already satisfying it) satisfies
`|code| = |lines|`. -/
theorem C5_code_lines_equal_length :
    (∀ (c : Chunk) (b line : Nat),
        (c.write b line).code.length = c.code.length + 1 ∧
        (c.write b line).lines.length = c.lines.length + 1) ∧
    (∀ (c : Chunk) (v : Value),
        (c.addConstant v).1.code = c.code ∧
        (c.addConstant v).1.lines = c.lines) ∧
    (∀ (n : Nat) (source : List Char) (ck : Chunk) (st' : CompState),
        compileFuel n source ck = .ok st' →
        ck.code.length = ck.lines.length →
        st'.chunk.code.length = st'.chunk.lines.length) := by
  refine ⟨?_, ?_, ?_⟩
  · intro c b line
    constructor <;> simp [Chunk.write]
  · intro c v
    exact ⟨rfl, rfl⟩
  · intro n source ck st' h hbase
    unfold compileFuel at h
    obtain ⟨stm, h1, h2⟩ := CompRes.bind_eq_ok _ _ _ h
    cases h2
    exact chunkInv_emitByte _ _ (compStep_chunkInv _ _ _ _ h1
      (chunkInv_of_chunk_eq (advanceC_chunk _)
        (show chunkInv (newCompiler source ck) from hbase)))

/-- Witness for C5 on a concrete chunk and the compilation of `1;`. -/
theorem C5_code_lines_equal_length_witness :
    ((newChunk.write 7 1).code.length = newChunk.code.length + 1 ∧
     (newChunk.write 7 1).lines.length = newChunk.lines.length + 1) ∧
    ((newChunk.addConstant .nilV).1.code = newChunk.code ∧
     (newChunk.addConstant .nilV).1.lines = newChunk.lines) ∧
    c5state.chunk.code.length = c5state.chunk.lines.length :=
  ⟨C5_code_lines_equal_length.1 newChunk 7 1,
   C5_code_lines_equal_length.2.1 newChunk .nilV,
   C5_code_lines_equal_length.2.2 104 "1;".toList newChunk c5state
     (by rfl) rfl⟩


theorem readByte_none (vm : VmState)
    (h : vm.chunk.code.get? vm.ip = none) : Vm.readByte vm = none := by
  unfold Vm.readByte
  rw [h]
  rfl




/-- Reading a constant only advances `ip` (by one operand byte). -/
theorem readConstant_shape (vm : VmState) (v : Value) (vm' : VmState)
    (h : Vm.readConstant vm = some (v, vm')) :
    vm' = { vm with ip := vm.ip + 1 } := by
  unfold Vm.readConstant Vm.readByte at h
  cases hc : vm.chunk.code.get? vm.ip with
  | none => rw [hc] at h; exact Option.noConfusion h
  | some b =>
      rw [hc] at h
      simp only [Option.map_some'] at h
      cases hk : vm.chunk.constants.get? b with
      | none => rw [hk] at h; exact Option.noConfusion h
      | some w =>
          rw [hk] at h
          injection h with hp
          injection hp with hv hvm
          exact hvm.symm

/-- Every instruction step that halts with the runtime-error outcome
looks up `chunk.lines[ip-1]` with the opcode (and, for the global
opcodes, the operand byte) already consumed, and produces exactly the
`runtimeError` effect applied to that intermediate state. -/
theorem stepInstr_runtimeError_shape (vm vmF : VmState)
    (h : Vm.stepInstr vm = some (.halt .runtimeError vmF)) :
    ∃ (msg : String) (d L : Nat),
      (d = 1 ∨ d = 2) ∧
      vm.chunk.lines.get? (vm.ip + d - 1) = some L ∧
      vmF = Vm.runtimeErrorApply msg L
        { vm with ip := vm.ip + d,
                  traceOut := vm.traceOut ++ [(vm.stack, vm.ip)] } := by
  unfold Vm.stepInstr at h
  cases hb : vm.chunk.code.get? vm.ip with
  | none =>
      rw [readByte_none { vm with traceOut := vm.traceOut ++ [(vm.stack, vm.ip)] } hb] at h
      exact Option.noConfusion h
  | some b =>
      rw [readByte_eq { vm with traceOut := vm.traceOut ++ [(vm.stack, vm.ip)] } b hb] at h
      split at h
      · exact Option.noConfusion h
      · rename_i instr vmr heq
        injection heq with heqp
        injection heqp with heqb heqv
        subst heqb
        obtain _|_|_|_|_|_|_|_|_|_|_|_|_|_|_|_|_|_|_|_|_|_|_|_|_|_|_|b := b
        on_goal 28 =>
          -- unknown opcode ≥ 27: every dispatch test is false
          rw [if_neg (show ¬(b + 27 = opReturn) from by simp only [opReturn, opConstant, opNegate, opAdd, opSubtract, opMultiply, opDivide, opNil, opTrue, opFalse, opNot, opEqual, opNotEqual, opGreater, opGreaterEqual, opLess, opLessEqual, opPrint, opPop, opDefineGlobal, opGetGlobal, opSetGlobal, opGetLocal, opSetLocal, opJumpIfFalse, opJump, opLoop]; omega),
            if_neg (show ¬(b + 27 = opConstant) from by simp only [opReturn, opConstant, opNegate, opAdd, opSubtract, opMultiply, opDivide, opNil, opTrue, opFalse, opNot, opEqual, opNotEqual, opGreater, opGreaterEqual, opLess, opLessEqual, opPrint, opPop, opDefineGlobal, opGetGlobal, opSetGlobal, opGetLocal, opSetLocal, opJumpIfFalse, opJump, opLoop]; omega),
            if_neg (show ¬(b + 27 = opNegate) from by simp only [opReturn, opConstant, opNegate, opAdd, opSubtract, opMultiply, opDivide, opNil, opTrue, opFalse, opNot, opEqual, opNotEqual, opGreater, opGreaterEqual, opLess, opLessEqual, opPrint, opPop, opDefineGlobal, opGetGlobal, opSetGlobal, opGetLocal, opSetLocal, opJumpIfFalse, opJump, opLoop]; omega),
            if_neg (show ¬(b + 27 = opAdd) from by simp only [opReturn, opConstant, opNegate, opAdd, opSubtract, opMultiply, opDivide, opNil, opTrue, opFalse, opNot, opEqual, opNotEqual, opGreater, opGreaterEqual, opLess, opLessEqual, opPrint, opPop, opDefineGlobal, opGetGlobal, opSetGlobal, opGetLocal, opSetLocal, opJumpIfFalse, opJump, opLoop]; omega),
            if_neg (show ¬(b + 27 = opSubtract ∨ b + 27 = opMultiply ∨ b + 27 = opDivide ∨ b + 27 = opGreater ∨ b + 27 = opLess ∨ b + 27 = opGreaterEqual ∨ b + 27 = opLessEqual) from by simp only [opReturn, opConstant, opNegate, opAdd, opSubtract, opMultiply, opDivide, opNil, opTrue, opFalse, opNot, opEqual, opNotEqual, opGreater, opGreaterEqual, opLess, opLessEqual, opPrint, opPop, opDefineGlobal, opGetGlobal, opSetGlobal, opGetLocal, opSetLocal, opJumpIfFalse, opJump, opLoop]; omega),
            if_neg (show ¬(b + 27 = opNil) from by simp only [opReturn, opConstant, opNegate, opAdd, opSubtract, opMultiply, opDivide, opNil, opTrue, opFalse, opNot, opEqual, opNotEqual, opGreater, opGreaterEqual, opLess, opLessEqual, opPrint, opPop, opDefineGlobal, opGetGlobal, opSetGlobal, opGetLocal, opSetLocal, opJumpIfFalse, opJump, opLoop]; omega),
            if_neg (show ¬(b + 27 = opTrue) from by simp only [opReturn, opConstant, opNegate, opAdd, opSubtract, opMultiply, opDivide, opNil, opTrue, opFalse, opNot, opEqual, opNotEqual, opGreater, opGreaterEqual, opLess, opLessEqual, opPrint, opPop, opDefineGlobal, opGetGlobal, opSetGlobal, opGetLocal, opSetLocal, opJumpIfFalse, opJump, opLoop]; omega),
            if_neg (show ¬(b + 27 = opFalse) from by simp only [opReturn, opConstant, opNegate, opAdd, opSubtract, opMultiply, opDivide, opNil, opTrue, opFalse, opNot, opEqual, opNotEqual, opGreater, opGreaterEqual, opLess, opLessEqual, opPrint, opPop, opDefineGlobal, opGetGlobal, opSetGlobal, opGetLocal, opSetLocal, opJumpIfFalse, opJump, opLoop]; omega),
            if_neg (show ¬(b + 27 = opNot) from by simp only [opReturn, opConstant, opNegate, opAdd, opSubtract, opMultiply, opDivide, opNil, opTrue, opFalse, opNot, opEqual, opNotEqual, opGreater, opGreaterEqual, opLess, opLessEqual, opPrint, opPop, opDefineGlobal, opGetGlobal, opSetGlobal, opGetLocal, opSetLocal, opJumpIfFalse, opJump, opLoop]; omega),
            if_neg (show ¬(b + 27 = opEqual) from by simp only [opReturn, opConstant, opNegate, opAdd, opSubtract, opMultiply, opDivide, opNil, opTrue, opFalse, opNot, opEqual, opNotEqual, opGreater, opGreaterEqual, opLess, opLessEqual, opPrint, opPop, opDefineGlobal, opGetGlobal, opSetGlobal, opGetLocal, opSetLocal, opJumpIfFalse, opJump, opLoop]; omega),
            if_neg (show ¬(b + 27 = opNotEqual) from by simp only [opReturn, opConstant, opNegate, opAdd, opSubtract, opMultiply, opDivide, opNil, opTrue, opFalse, opNot, opEqual, opNotEqual, opGreater, opGreaterEqual, opLess, opLessEqual, opPrint, opPop, opDefineGlobal, opGetGlobal, opSetGlobal, opGetLocal, opSetLocal, opJumpIfFalse, opJump, opLoop]; omega),
            if_neg (show ¬(b + 27 = opPrint) from by simp only [opReturn, opConstant, opNegate, opAdd, opSubtract, opMultiply, opDivide, opNil, opTrue, opFalse, opNot, opEqual, opNotEqual, opGreater, opGreaterEqual, opLess, opLessEqual, opPrint, opPop, opDefineGlobal, opGetGlobal, opSetGlobal, opGetLocal, opSetLocal, opJumpIfFalse, opJump, opLoop]; omega),
            if_neg (show ¬(b + 27 = opPop) from by simp only [opReturn, opConstant, opNegate, opAdd, opSubtract, opMultiply, opDivide, opNil, opTrue, opFalse, opNot, opEqual, opNotEqual, opGreater, opGreaterEqual, opLess, opLessEqual, opPrint, opPop, opDefineGlobal, opGetGlobal, opSetGlobal, opGetLocal, opSetLocal, opJumpIfFalse, opJump, opLoop]; omega),
            if_neg (show ¬(b + 27 = opDefineGlobal) from by simp only [opReturn, opConstant, opNegate, opAdd, opSubtract, opMultiply, opDivide, opNil, opTrue, opFalse, opNot, opEqual, opNotEqual, opGreater, opGreaterEqual, opLess, opLessEqual, opPrint, opPop, opDefineGlobal, opGetGlobal, opSetGlobal, opGetLocal, opSetLocal, opJumpIfFalse, opJump, opLoop]; omega),
            if_neg (show ¬(b + 27 = opGetGlobal) from by simp only [opReturn, opConstant, opNegate, opAdd, opSubtract, opMultiply, opDivide, opNil, opTrue, opFalse, opNot, opEqual, opNotEqual, opGreater, opGreaterEqual, opLess, opLessEqual, opPrint, opPop, opDefineGlobal, opGetGlobal, opSetGlobal, opGetLocal, opSetLocal, opJumpIfFalse, opJump, opLoop]; omega),
            if_neg (show ¬(b + 27 = opSetGlobal) from by simp only [opReturn, opConstant, opNegate, opAdd, opSubtract, opMultiply, opDivide, opNil, opTrue, opFalse, opNot, opEqual, opNotEqual, opGreater, opGreaterEqual, opLess, opLessEqual, opPrint, opPop, opDefineGlobal, opGetGlobal, opSetGlobal, opGetLocal, opSetLocal, opJumpIfFalse, opJump, opLoop]; omega),
            if_neg (show ¬(b + 27 = opGetLocal) from by simp only [opReturn, opConstant, opNegate, opAdd, opSubtract, opMultiply, opDivide, opNil, opTrue, opFalse, opNot, opEqual, opNotEqual, opGreater, opGreaterEqual, opLess, opLessEqual, opPrint, opPop, opDefineGlobal, opGetGlobal, opSetGlobal, opGetLocal, opSetLocal, opJumpIfFalse, opJump, opLoop]; omega),
            if_neg (show ¬(b + 27 = opSetLocal) from by simp only [opReturn, opConstant, opNegate, opAdd, opSubtract, opMultiply, opDivide, opNil, opTrue, opFalse, opNot, opEqual, opNotEqual, opGreater, opGreaterEqual, opLess, opLessEqual, opPrint, opPop, opDefineGlobal, opGetGlobal, opSetGlobal, opGetLocal, opSetLocal, opJumpIfFalse, opJump, opLoop]; omega),
            if_neg (show ¬(b + 27 = opJumpIfFalse) from by simp only [opReturn, opConstant, opNegate, opAdd, opSubtract, opMultiply, opDivide, opNil, opTrue, opFalse, opNot, opEqual, opNotEqual, opGreater, opGreaterEqual, opLess, opLessEqual, opPrint, opPop, opDefineGlobal, opGetGlobal, opSetGlobal, opGetLocal, opSetLocal, opJumpIfFalse, opJump, opLoop]; omega),
            if_neg (show ¬(b + 27 = opJump) from by simp only [opReturn, opConstant, opNegate, opAdd, opSubtract, opMultiply, opDivide, opNil, opTrue, opFalse, opNot, opEqual, opNotEqual, opGreater, opGreaterEqual, opLess, opLessEqual, opPrint, opPop, opDefineGlobal, opGetGlobal, opSetGlobal, opGetLocal, opSetLocal, opJumpIfFalse, opJump, opLoop]; omega),
            if_neg (show ¬(b + 27 = opLoop) from by simp only [opReturn, opConstant, opNegate, opAdd, opSubtract, opMultiply, opDivide, opNil, opTrue, opFalse, opNot, opEqual, opNotEqual, opGreater, opGreaterEqual, opLess, opLessEqual, opPrint, opPop, opDefineGlobal, opGetGlobal, opSetGlobal, opGetLocal, opSetLocal, opJumpIfFalse, opJump, opLoop]; omega)] at h
          exact absurd h (by simp)
        all_goals (norm_num [opReturn, opConstant, opNegate, opAdd, opSubtract, opMultiply, opDivide, opNil, opTrue, opFalse, opNot, opEqual, opNotEqual, opGreater, opGreaterEqual, opLess, opLessEqual, opPrint, opPop, opDefineGlobal, opGetGlobal, opSetGlobal, opGetLocal, opSetLocal, opJumpIfFalse, opJump, opLoop] at h)
        all_goals (repeat' (split at h))
        all_goals (try (exact Option.noConfusion h))
        all_goals (try (exact absurd h (by simp)))
        all_goals
          (first
            | (subst heqv
               unfold Vm.raiseRT at h
               rw [Option.map_eq_some'] at h
               obtain ⟨L, hL, hEq⟩ := h
               injection hEq with hEq1 hEq2
               exact ⟨_, 1, L, Or.inl rfl, by simpa using hL, hEq2.symm⟩)
            | (rename_i name vmc heqrc xg hglob
               have hshape := readConstant_shape _ _ _ heqrc
               subst hshape
               subst heqv
               unfold Vm.raiseRT at h
               rw [Option.map_eq_some'] at h
               obtain ⟨L, hL, hEq⟩ := h
               injection hEq with hEq1 hEq2
               exact ⟨_, 2, L, Or.inr rfl, by simpa using hL, hEq2.symm⟩))

/-- Claim C8: when an identifier reference resolves (newest to oldest)
to a local of depth `-1`, `resolveLocal` reports "Cannot read local
variable in its own initializer."; compiling `{ var a = a; }` fails
with exactly that diagnostic, and the file-mode run of it exits 65. -/
theorem C8_own_initializer_error :
    (∀ (st : CompState) (tok : Token) (j : Nat) (l : LocalVar),
        st.panicMode = false →
        st.locals.reverse.findIdx? (fun l => l.name.lexeme = tok.lexeme) = some j →
        st.locals.reverse.get? j = some l →
        l.depth = -1 →
        (Comp.resolveLocal tok st).2.hadError = true ∧
        (Comp.resolveLocal tok st).2.diags = st.diags ++
          [⟨st.previous.line,
            if st.previous.tokenType = .eof then .atEnd
            else if st.previous.tokenType = .error then .atError
            else .atLexeme st.previous.lexeme,
            "Cannot read local variable in its own initializer."⟩]) ∧
    ((compileGo ownInitSource newChunk).map
        (fun p => (p.1, p.2.diags.map Diag.message)) =
      some (false, ["Cannot read local variable in its own initializer."])) ∧
    runFileExit 100 ownInitSource = some 65 := by
  refine ⟨?_, rfl, rfl⟩
  intro st tok j l hpanic hfind hget hdepth
  unfold Comp.resolveLocal
  rw [hfind]
  simp only []
  rw [hget]
  simp only []
  rw [if_pos hdepth]
  constructor <;>
    simp [Comp.errorAtPrev, Comp.errorAt, hpanic]

/-- Witness for C8's resolution property at a concrete compiler
state. -/
theorem C8_own_initializer_error_witness :
    (Comp.resolveLocal ⟨.identifier, ['a'], 1⟩ c8state).2.hadError = true ∧
    (Comp.resolveLocal ⟨.identifier, ['a'], 1⟩ c8state).2.diags =
      [⟨1, .atLexeme ['a'], "Cannot read local variable in its own initializer."⟩] := by
  have h := C8_own_initializer_error.1 c8state ⟨.identifier, ['a'], 1⟩ 0
    ⟨⟨.identifier, ['a'], 1⟩, -1⟩ rfl rfl rfl rfl
  exact ⟨h.1, by rw [h.2]; rfl⟩

/-- Claim C2 as amended: every run that ends in the runtime-error
outcome reached a state `s` from which the erroring step wrote the
message and a newline to stderr and the `[line L] in script` line
(L = `chunk.lines[ip-1]` after consuming the instruction) to stdout,
then cleared the stack, discarded the chunk and reset `ip` to 0
(globals persist). -/
theorem C2_amended :
    ∀ (fuel : Nat) (vm vmF : VmState),
      Vm.runVm fuel vm = some (.runtimeError, vmF) →
      ∃ (s : VmState) (msg : String) (d L : Nat),
        Reaches vm s ∧ (d = 1 ∨ d = 2) ∧
        s.chunk.lines.get? (s.ip + d - 1) = some L ∧
        vmF.stderrOut = s.stderrOut ++ [msg, "\n"] ∧
        vmF.stdoutOut = s.stdoutOut ++ ["[line " ++ Nat.repr L ++ "] in script\n"] ∧
        vmF.stack = [] ∧ vmF.chunk = newChunk ∧ vmF.ip = 0 ∧
        vmF.globals = s.globals := by
  intro fuel
  induction fuel with
  | zero => intro vm vmF h; cases h
  | succ n ih =>
      intro vm vmF h
      unfold Vm.runVm at h
      cases hs : Vm.stepInstr vm with
      | none => rw [hs] at h; cases h
      | some so =>
          rw [hs] at h
          cases so with
          | next v' =>
              simp only [] at h
              obtain ⟨s, msg, d, L, hr, hd, hL, h1, h2, h3, h4, h5, h6⟩ :=
                ih v' vmF h
              exact ⟨s, msg, d, L, .step vm v' s hs hr, hd, hL,
                     h1, h2, h3, h4, h5, h6⟩
          | halt r v' =>
              simp only [Option.some.injEq, Prod.mk.injEq] at h
              obtain ⟨hr1, hr2⟩ := h
              subst hr1
              subst hr2
              obtain ⟨msg, d, L, hd, hL, hEq⟩ :=
                stepInstr_runtimeError_shape vm v' hs
              subst hEq
              refine ⟨vm, msg, d, L, .refl vm, hd, hL, ?_, ?_, ?_, ?_, ?_, ?_⟩ <;>
                simp [Vm.runtimeErrorApply, Vm.resetVm]

/-- Witness for C2's amended statement on the concrete `OP_NEGATE`
runtime error. -/
theorem C2_amended_witness :
    ∃ (s : VmState) (msg : String) (d L : Nat),
      Reaches vmNegateNil s ∧ (d = 1 ∨ d = 2) ∧
      s.chunk.lines.get? (s.ip + d - 1) = some L ∧
      vmNegateNilFinal.stderrOut = s.stderrOut ++ [msg, "\n"] ∧
      vmNegateNilFinal.stdoutOut =
        s.stdoutOut ++ ["[line " ++ Nat.repr L ++ "] in script\n"] ∧
      vmNegateNilFinal.stack = [] ∧ vmNegateNilFinal.chunk = newChunk ∧
      vmNegateNilFinal.ip = 0 ∧ vmNegateNilFinal.globals = s.globals :=
  C2_amended 2 vmNegateNil vmNegateNilFinal rfl

end Golox
